import Mathlib

/-!
Verification development for the flinspect repository: a three-pass textual
parser and symbol resolver for flang parse-tree dump files.

The definitions below are shallow embeddings of the Python source:

 * `node_registry.py`  : `NodeRegistryM`, `getOrCreate`, `getSubroutineByName`
 * `parse_tree.py`     : compatibility checks, `procedureMatches`,
   `resolveInterfaceProcedures`, `findNamedEntity`, `recordCallDependencies`,
   `inferVariableType`, `parseUseStmt`, the structure pass `parseStructure`
 * `parse_state.py`    : `Curr`
 * `variable_info.py`  : `VariableInfo`
 * `utils.py`          : `level`

Python dicts are modeled as insertion-ordered association lists, Python sets
as lists with insert-if-absent, object identity as `Nat` ids or interning
keys, exceptions (AssertionError, ValueError, KeyError, AttributeError,
StopIteration) as `Except String`.  Regular-expression searches in the
source use only literal text followed by a single quoted `(\w+)` or `(\d+)`
group, or a word-boundary check; these are embedded by the explicit
scanning functions below, which model the leftmost-match semantics of
`re.search`.
-/

set_option maxRecDepth 4000

namespace Flinspect

/-- The single-quote character (codepoint 39); names in dump lines are
wrapped in these. -/
def sq : Char := Char.ofNat 39

/-- The single-quote as a one-character string. -/
def sqS : String := String.mk [sq]

/-- Wrap a string in single quotes, as quoted names appear in dump lines. -/
def qt (s : String) : String := sqS ++ s ++ sqS

/-- `utils.level` on the character list: count leading bar characters,
skipping spaces, stopping at the first other character. -/
def levelChars : List Char → Nat
  | [] => 0
  | c :: cs => if c = '|' then levelChars cs + 1 else if c = ' ' then levelChars cs else 0

/-- `utils.level`: nesting depth of a dump line. -/
def level (line : String) : Nat := levelChars line.data

/-- Word character in the sense of the `\w` regex class (ASCII identifiers,
which is what the dump format contains). -/
def isWordChar (c : Char) : Bool := c.isAlpha || c.isDigit || c = '_'

/-- Boolean list prefix test. -/
def isPrefixL : List Char → List Char → Bool
  | [], _ => true
  | _ :: _, [] => false
  | a :: as, b :: bs => a == b && isPrefixL as bs

/-- Boolean substring test on character lists. -/
def hasSubL (pat : List Char) : List Char → Bool
  | [] => isPrefixL pat []
  | s@(_ :: t) => isPrefixL pat s || hasSubL pat t

/-- Python `pat in line` (substring containment). -/
def hasSub (pat line : String) : Bool := hasSubL pat.data line.data

/-- Split off the longest run of word characters. -/
def spanWord : List Char → List Char × List Char
  | [] => ([], [])
  | c :: cs =>
    if isWordChar c then
      let (w, r) := spanWord cs
      (c :: w, r)
    else ([], c :: cs)

/-- Try to match, at the start of `s`, the literal `pat` followed by one or
more word characters and a closing single quote; the quoted-group pattern of
the source regexes.  `pat` itself contains the opening quote. -/
def matchNameAt (pat : List Char) (s : List Char) : Option String :=
  if isPrefixL pat s then
    let (w, r) := spanWord (s.drop pat.length)
    if w.isEmpty then none
    else
      match r with
      | c :: _ => if c = sq then some (String.mk w) else none
      | [] => none
  else none

/-- Leftmost successful match of `matchNameAt`, as `re.search` would find. -/
def scanName (pat : List Char) : List Char → Option String
  | [] => none
  | s@(_ :: t) =>
    match matchNameAt pat s with
    | some w => some w
    | none => scanName pat t

/-- `re.search` of a literal pattern ending in an opening quote, followed by
`(\w+)` and a closing quote; returns the captured group. -/
def extractQ (pat line : String) : Option String := scanName pat.data line.data

/-- The ubiquitous `Name = '(\w+)'` capture. -/
def nameEq (line : String) : Option String := extractQ ("Name = " ++ sqS) line

/-- Match, at the start of `s`, the literal `pat` followed by one or more
word characters (no quotes): the `(\w+)` group without quoting. -/
def matchWordAt (pat : List Char) (s : List Char) : Option String :=
  if isPrefixL pat s then
    let (w, _) := spanWord (s.drop pat.length)
    if w.isEmpty then none else some (String.mk w)
  else none

/-- Leftmost successful match of `matchWordAt`. -/
def scanWord (pat : List Char) : List Char → Option String
  | [] => none
  | s@(_ :: t) =>
    match matchWordAt pat s with
    | some w => some w
    | none => scanWord pat t

/-- `re.search` of a literal pattern followed by an unquoted `(\w+)` group. -/
def extractW (pat line : String) : Option String := scanWord pat.data line.data

/-- Split off the longest run of decimal digits. -/
def spanDigits : List Char → List Char × List Char
  | [] => ([], [])
  | c :: cs =>
    if c.isDigit then
      let (w, r) := spanDigits cs
      (c :: w, r)
    else ([], c :: cs)

/-- Digits to a natural number. -/
def digitsToNat (w : List Char) : Nat := w.foldl (fun acc c => 10 * acc + (c.toNat - 48)) 0

/-- Match, at the start of `s`, the literal `pat` followed by one or more
digits and a closing quote (`pat` contains the opening quote). -/
def matchIntAt (pat : List Char) (s : List Char) : Option Nat :=
  if isPrefixL pat s then
    let (w, r) := spanDigits (s.drop pat.length)
    if w.isEmpty then none
    else
      match r with
      | c :: _ => if c = sq then some (digitsToNat w) else none
      | [] => none
  else none

/-- Leftmost successful match of `matchIntAt`. -/
def scanInt (pat : List Char) : List Char → Option Nat
  | [] => none
  | s@(_ :: t) =>
    match matchIntAt pat s with
    | some n => some n
    | none => scanInt pat t

/-- `re.search` of a literal pattern ending in an opening quote followed by
`(\d+)` and a closing quote. -/
def extractInt (pat line : String) : Option Nat := scanInt pat.data line.data

/-- Helper for the word-boundary regexes: does `pat` occur at a position
preceded by a non-word character (or at the start)? `prev` is the character
before the current position. -/
def hasWordBGo (pat : List Char) : Option Char → List Char → Bool
  | _, [] => pat.isEmpty
  | prev, s@(c :: t) =>
    (isPrefixL pat s && (match prev with
      | none => true
      | some p => !(isWordChar p))) || hasWordBGo pat (some c) t

/-- `re.search` of a word boundary followed by the literal `pat`. -/
def hasWordB (pat line : String) : Bool := hasWordBGo pat.data none line.data

/-- Drop trailing space characters, for the regex of a literal followed by
optional spaces and end-of-line. -/
def dropTrailingSpaces (s : String) : String :=
  String.mk ((s.data.reverse.dropWhile (fun c => c = ' ')).reverse)

/-- Python `str.lower` (the dump names are ASCII). -/
def lowerS (s : String) : String := String.mk (s.data.map Char.toLower)

/-- Python `str.endswith` (suffix test), on the character lists. -/
def endsWithS (s post : String) : Bool := isPrefixL post.data.reverse s.data.reverse

/-- Python `str.startswith`. -/
def startsWithS (s pre : String) : Bool := isPrefixL pre.data s.data

/-- Ordered association-list lookup: Python `d[k]` / `k in d`. -/
def lookupA {κ ν : Type} [DecidableEq κ] : List (κ × ν) → κ → Option ν
  | [], _ => none
  | (k0, v) :: t, k => if k0 = k then some v else lookupA t k

/-- Ordered association-list assignment: Python `d[k] = v` (update in place
keeping position, or append as newest key). -/
def setA {κ ν : Type} [DecidableEq κ] : List (κ × ν) → κ → ν → List (κ × ν)
  | [], k, v => [(k, v)]
  | (k0, v0) :: t, k, v => if k0 = k then (k, v) :: t else (k0, v0) :: setA t k v

/-- Python `set.add` modeled on lists: insert if absent. -/
def addS {α : Type} [DecidableEq α] (x : α) (l : List α) : List α :=
  if x ∈ l then l else l ++ [x]

/-! ## Node registry (`node_registry.py`)

`NodeRegistry` interns node objects per (class, key).  Object identity is
modeled by allocation ids drawn from a counter: `_get_or_create` allocates a
fresh id exactly when it constructs a new instance. -/

/-- The node classes managed by `NodeRegistry`. -/
inductive RKind where
  | module | program | subprogram | subroutine | function | interface | derivedType
deriving DecidableEq, Repr

/-- `NodeRegistry` state: the nested `_store` dict (class -> key -> node),
with nodes as allocation ids, plus the allocation counter. -/
structure NodeRegistryM where
  store : List (RKind × List (String × Nat))
  nextId : Nat
deriving DecidableEq, Repr

/-- `NodeRegistry._get_or_create`: ensure the per-class dict exists, then
return the interned node for the key, allocating a fresh one if absent. -/
def getOrCreate (k : RKind) (key : String) (r : NodeRegistryM) : Nat × NodeRegistryM :=
  match lookupA r.store k with
  | some tbl =>
    match lookupA tbl key with
    | some i => (i, r)
    | none =>
      (r.nextId,
       { store := setA r.store k (setA tbl key r.nextId), nextId := r.nextId + 1 })
  | none =>
    (r.nextId,
     { store := setA r.store k [(key, r.nextId)], nextId := r.nextId + 1 })

/-- Interned node for a (class, key), if any. -/
def regLookup (r : NodeRegistryM) (k : RKind) (key : String) : Option Nat :=
  (lookupA r.store k).bind (fun tbl => lookupA tbl key)

/-- A sequence of further `_get_or_create` requests against the registry. -/
def runOps (ops : List (RKind × String)) (r : NodeRegistryM) : NodeRegistryM :=
  ops.foldl (fun s o => (getOrCreate o.1 o.2 s).2) r

/-- The `Module`/`Program`/`Subprogram` key function (`ProgramUnit.key`). -/
def programUnitKey (name : String) : String := name

/-- The `Subroutine`/`Function` key function (`Callable.key`). -/
def callableKey (name programUnitName : String) (parentName : Option String) : String :=
  match parentName with
  | none => programUnitName ++ "::" ++ name
  | some p => programUnitName ++ "::" ++ p ++ "::" ++ name

/-- The `Interface.key` / `DerivedType.key` functions. -/
def scopedKey (name scopeName : String) : String := scopeName ++ "::" ++ name

theorem lookupA_setA_self {κ ν : Type} [DecidableEq κ] (l : List (κ × ν)) (k : κ) (v : ν) :
    lookupA (setA l k v) k = some v := by
  induction l with
  | nil => simp [setA, lookupA]
  | cons h t ih =>
    obtain ⟨k0, v0⟩ := h
    by_cases hk : k0 = k
    · simp [setA, hk, lookupA]
    · simp [setA, hk, lookupA, ih]

theorem lookupA_setA_other {κ ν : Type} [DecidableEq κ] (l : List (κ × ν)) (k k' : κ) (v : ν)
    (hne : k' ≠ k) : lookupA (setA l k' v) k = lookupA l k := by
  induction l with
  | nil => simp [setA, lookupA, hne]
  | cons h t ih =>
    obtain ⟨k0, v0⟩ := h
    by_cases hk : k0 = k'
    · subst hk
      simp [setA, lookupA, hne]
    · simp [setA, hk, lookupA, ih]

theorem regLookup_after_getOrCreate_self (k : RKind) (key : String) (r : NodeRegistryM) :
    regLookup (getOrCreate k key r).2 k key = some (getOrCreate k key r).1 := by
  cases htbl : lookupA r.store k with
  | some tbl =>
    cases hkey : lookupA tbl key with
    | some i => simp [getOrCreate, regLookup, htbl, hkey]
    | none => simp [getOrCreate, regLookup, htbl, hkey, lookupA_setA_self]
  | none => simp [getOrCreate, regLookup, htbl, lookupA_setA_self, lookupA]

theorem regLookup_preserved_getOrCreate (k k' : RKind) (key key' : String) (r : NodeRegistryM)
    (i : Nat) (h : regLookup r k key = some i) :
    regLookup (getOrCreate k' key' r).2 k key = some i := by
  cases htbl' : lookupA r.store k' with
  | some tbl' =>
    cases hkey' : lookupA tbl' key' with
    | some j => simpa [getOrCreate, htbl', hkey'] using h
    | none =>
      by_cases hk : k' = k
      · subst hk
        simp only [regLookup, htbl', Option.some_bind] at h
        by_cases hkey : key' = key
        · subst hkey; rw [hkey'] at h; cases h
        · simp [getOrCreate, regLookup, htbl', hkey', lookupA_setA_self,
            lookupA_setA_other _ _ _ _ hkey, h]
      · simp only [regLookup] at h ⊢
        simp [getOrCreate, htbl', hkey', lookupA_setA_other _ _ _ _ hk, h]
  | none =>
    by_cases hk : k' = k
    · subst hk
      simp [regLookup, htbl'] at h
    · simp only [regLookup] at h ⊢
      simp [getOrCreate, htbl', lookupA_setA_other _ _ _ _ hk, h]

theorem regLookup_preserved_runOps (ops : List (RKind × String)) (k : RKind) (key : String)
    (r : NodeRegistryM) (i : Nat) (h : regLookup r k key = some i) :
    regLookup (runOps ops r) k key = some i := by
  induction ops generalizing r with
  | nil => simpa [runOps] using h
  | cons o t ih =>
    simp only [runOps, List.foldl_cons]
    exact ih _ (regLookup_preserved_getOrCreate _ _ _ _ _ _ h)

theorem getOrCreate_hit (k : RKind) (key : String) (r : NodeRegistryM) (i : Nat)
    (h : regLookup r k key = some i) : getOrCreate k key r = (i, r) := by
  have h' : ∃ tbl, lookupA r.store k = some tbl ∧ lookupA tbl key = some i := by
    cases htbl : lookupA r.store k with
    | some tbl => exact ⟨tbl, rfl, by simpa [regLookup, htbl] using h⟩
    | none => simp [regLookup, htbl] at h
  obtain ⟨tbl, htbl, hkey⟩ := h'
  simp [getOrCreate, htbl, hkey]

/-- C1: interning is idempotent.  After a first `_get_or_create` for a
(class, key) returns a node, any number of interleaved `_get_or_create`
requests later, the same request returns the identical node and leaves the
registry unchanged — in particular no second instance is ever allocated for
that (class, key). -/
theorem c1_registry_interning_idempotent (k : RKind) (key : String) (r : NodeRegistryM)
    (ops : List (RKind × String)) :
    getOrCreate k key (runOps ops (getOrCreate k key r).2)
      = ((getOrCreate k key r).1, runOps ops (getOrCreate k key r).2) := by
  apply getOrCreate_hit
  exact regLookup_preserved_runOps _ _ _ _ _ (regLookup_after_getOrCreate_self k key r)

/-! ## `NodeRegistry.get_subroutine_by_name` -/

/-- `NodeRegistry.get_subroutine_by_name`: scan the Subroutine table for
keys ending with the given name; return the unique match, `none` when there
is no match, and raise `ValueError` when several keys match.  Accessing the
Subroutine table raises `KeyError` when no subroutine was ever interned. -/
def getSubroutineByName (r : NodeRegistryM) (name : String) : Except String (Option Nat) :=
  match lookupA r.store RKind.subroutine with
  | none => .error "KeyError: Subroutine"
  | some tbl =>
    let subroutines := tbl.foldl
      (fun acc kv => if endsWithS kv.1 name then acc ++ [(name, kv.2)] else acc)
      ([] : List (String × Nat))
    match subroutines with
    | [x] => .ok (some x.2)
    | _ :: _ :: _ =>
      .error ("Multiple subroutines found with name ending " ++ qt name)
    | [] => .ok none

theorem foldl_matches_eq_filter (tbl : List (String × Nat)) (name : String)
    (acc : List (String × Nat)) :
    tbl.foldl (fun acc kv => if endsWithS kv.1 name then acc ++ [(name, kv.2)] else acc) acc
      = acc ++ (tbl.filter (fun kv => endsWithS kv.1 name)).map (fun kv => (name, kv.2)) := by
  induction tbl generalizing acc with
  | nil => simp
  | cons h t ih =>
    by_cases hm : endsWithS h.1 name
    · simp [List.filter, hm, ih]
    · simp [List.filter, hm, ih]

/-- C10: suffix lookup of subroutines.  Given that a Subroutine table
exists, `get_subroutine_by_name` returns `None` when no interned key ends
with the name, returns the unique matching subroutine when exactly one key
does, and raises `ValueError` when two or more keys do. -/
theorem c10_get_subroutine_by_name_spec (r : NodeRegistryM) (tbl : List (String × Nat))
    (name : String) (h : lookupA r.store RKind.subroutine = some tbl) :
    (tbl.filter (fun kv => endsWithS kv.1 name) = [] →
        getSubroutineByName r name = .ok none)
  ∧ (∀ k v, tbl.filter (fun kv => endsWithS kv.1 name) = [(k, v)] →
        getSubroutineByName r name = .ok (some v))
  ∧ (2 ≤ (tbl.filter (fun kv => endsWithS kv.1 name)).length →
        ∃ msg, getSubroutineByName r name = .error msg) := by
  refine ⟨?_, ?_, ?_⟩
  · intro hf
    simp [getSubroutineByName, h, foldl_matches_eq_filter, hf]
  · intro k v hf
    simp [getSubroutineByName, h, foldl_matches_eq_filter, hf]
  · intro hf
    rcases hl : tbl.filter (fun kv => endsWithS kv.1 name) with _ | ⟨a, _ | ⟨b, t2⟩⟩
    · rw [hl] at hf; simp at hf
    · rw [hl] at hf; simp at hf
    · refine ⟨"Multiple subroutines found with name ending " ++ qt name, ?_⟩
      simp [getSubroutineByName, h, foldl_matches_eq_filter, hl]

/-- Witness for C10 at a concrete registry: one table with a unique key
ending in the sought name. -/
theorem c10_get_subroutine_by_name_spec_witness :
    getSubroutineByName
      { store := [(RKind.subroutine, [("moda::foo", 0), ("modb::bar", 1)])], nextId := 2 }
      "foo" = .ok (some 0) := by
  exact (c10_get_subroutine_by_name_spec _ [("moda::foo", 0), ("modb::bar", 1)] "foo"
    (by decide)).2.1 "moda::foo" 0 (by decide)

/-! ## Interface overload matching (`parse_tree.py`)

`_types_compatible`, `_ranks_compatible`, `_kinds_compatible`,
`_procedure_matches` and `resolve_interface_procedures`.  A procedure's
signature fields are those set by `_parse_routine_signature`; `num_args` is
derived from `arg_types` as in `parse_node.Callable`. -/

/-- `ParseTree._types_compatible`. -/
def typesCompatible (callType procType : String) : Bool :=
  if callType = "unknown" || procType = "unknown" then true
  else if callType = procType then true
  else if callType = "numeric" && (procType = "integer" || procType = "real") then true
  else if procType = "numeric" && (callType = "integer" || callType = "real") then true
  else if ((["integer", "real", "numeric"].contains callType
              && ["character", "logical"].contains procType)
           || (["integer", "real", "numeric"].contains procType
              && ["character", "logical"].contains callType)) then false
  else if ((["character"].contains callType
              && ["integer", "real", "logical", "numeric"].contains procType)
           || (["character"].contains procType
              && ["integer", "real", "logical", "numeric"].contains callType)) then false
  else if ((["logical"].contains callType
              && ["integer", "real", "character", "numeric"].contains procType)
           || (["logical"].contains procType
              && ["integer", "real", "character", "numeric"].contains callType)) then false
  else if startsWithS callType "derived:" && startsWithS procType "derived:" then
    callType = procType
  else true

/-- `ParseTree._ranks_compatible`: -1 is the unknown rank. -/
def ranksCompatible (callRank procRank : Int) : Bool :=
  if callRank = -1 || procRank = -1 then true else callRank = procRank

/-- `ParseTree._kinds_compatible`: `None` is the unknown kind. -/
def kindsCompatible : Option String → Option String → Bool
  | none, _ => true
  | _, none => true
  | some a, some b => a = b

/-- Signature fields of a `Callable` relevant to overload matching
(`parse_node.Callable`). -/
structure Proc where
  argNames : Option (List String) := none
  argTypes : Option (List String) := none
  argRanks : Option (List Int) := none
  argKinds : Option (List (Option String)) := none
  numRequiredArgs : Option Nat := none
deriving DecidableEq, Repr

/-- `Callable.num_args`: derived from `arg_types`. -/
def numArgs (p : Proc) : Option Nat := p.argTypes.map List.length

/-- Python truthiness of an optional list: `None` and the empty list are
falsy; returns the list exactly when it is truthy. -/
def truthy {α : Type} : Option (List α) → Option (List α)
  | none => none
  | some l => if l.isEmpty then none else some l

/-- `call_arg_names[i] if call_arg_names else None`.  (The source only
indexes with `i < len(call_arg_names)`, since `parse_call_arguments`
produces equal-length lists; out-of-range access is totalized to `None`.) -/
def kwAt (callArgNames : Option (List (Option String))) (i : Nat) : Option String :=
  match truthy callArgNames with
  | none => none
  | some l => l.getD i none

/-- The `call_to_proc_idx` construction of `_procedure_matches`, for call
arguments `i, i+1, ..., i+k-1`: a keyword argument must find its lowercased
name among the procedure's lowercased declared argument names (else the
whole call is rejected, modeled by `none`); a positional argument maps to
its own index. -/
def idxMapGo (panl : Option (List String)) (callArgNames : Option (List (Option String))) :
    Nat → Nat → Option (List Nat)
  | _, 0 => some []
  | i, k + 1 =>
    match kwAt callArgNames i, panl with
    | some kw, some names =>
      let kl := lowerS kw
      if names.contains kl then
        match idxMapGo panl callArgNames (i + 1) k with
        | some m => some (names.indexOf kl :: m)
        | none => none
      else none
    | _, _ =>
      match idxMapGo panl callArgNames (i + 1) k with
      | some m => some (i :: m)
      | none => none

/-- One of the per-axis loops of `_procedure_matches`: for call argument `i`
with value `v` and mapped parameter index `pi = idxMap[i]`, when
`pi < len(procVals)` the values must be compatible.  (`parse_call_arguments`
produces per-argument lists of one shared length, the length of `idxMap`;
the zip is exact there.) -/
def axisCheck {β : Type} (compat : β → β → Bool) (dflt : β) (idxMap : List Nat)
    (callVals : List β) (procVals : List β) : Bool :=
  (idxMap.zip callVals).all (fun pr =>
    if pr.1 < procVals.length then compat pr.2 (procVals.getD pr.1 dflt) else true)

/-- One axis block of `_procedure_matches`: the loop runs only when both the
call-side list and the procedure-side list are truthy (Python
`if call_arg_xs and proc.arg_xs:`); otherwise the axis passes. -/
def axisBlock {β : Type} (compat : β → β → Bool) (dflt : β) (idxMap : List Nat)
    (callVals procVals : Option (List β)) : Bool :=
  match truthy callVals, truthy procVals with
  | some ts, some pts => axisCheck compat dflt idxMap ts pts
  | _, _ => true

/-- `ParseTree._procedure_matches`. -/
def procedureMatches (p : Proc) (callArgTypes : List String)
    (callArgRanks : Option (List Int)) (callArgKinds : Option (List (Option String)))
    (callArgNames : Option (List (Option String))) : Bool :=
  match numArgs p with
  | none => true
  | some maxArgs =>
    let minArgs := p.numRequiredArgs.getD maxArgs
    let numCallArgs := callArgTypes.length
    if minArgs ≤ numCallArgs ∧ numCallArgs ≤ maxArgs then
      let panl := (truthy p.argNames).map (fun l => l.map lowerS)
      match idxMapGo panl callArgNames 0 numCallArgs with
      | none => false
      | some callToProcIdx =>
        axisBlock typesCompatible "" callToProcIdx (some callArgTypes) p.argTypes
          && axisBlock ranksCompatible 0 callToProcIdx callArgRanks p.argRanks
          && axisBlock kindsCompatible none callToProcIdx callArgKinds p.argKinds
    else false

/-- A member procedure of an `Interface`, with its object identity. -/
structure PMem where
  pid : Nat
  name : String
  sig : Proc
deriving DecidableEq, Repr

/-- `ParseTree.resolve_interface_procedures`: filter the interface's member
procedures by `_procedure_matches`, falling back to all members when none
has signature info or when the filter eliminates all of them. -/
def resolveInterfaceProcedures (procedures : List PMem) (callArgTypes : List String)
    (callArgRanks : Option (List Int)) (callArgKinds : Option (List (Option String)))
    (callArgNames : Option (List (Option String))) : List PMem :=
  let hasAnySignatureInfo := procedures.any (fun p => (numArgs p.sig).isSome)
  if !hasAnySignatureInfo then procedures
  else
    let matching := procedures.filter (fun p =>
      procedureMatches p.sig callArgTypes callArgRanks callArgKinds callArgNames)
    if matching.isEmpty then procedures else matching

/-- C3: conservative fallback of interface resolution.  With at least one
member: if no member has signature info the full member list is returned;
if filtering eliminates every member the full member list is returned; and
the result is never empty. -/
theorem c3_resolve_interface_fallback (procedures : List PMem) (callArgTypes : List String)
    (callArgRanks : Option (List Int)) (callArgKinds : Option (List (Option String)))
    (callArgNames : Option (List (Option String))) (hne : procedures ≠ []) :
    ((∀ p ∈ procedures, numArgs p.sig = none) →
      resolveInterfaceProcedures procedures callArgTypes callArgRanks callArgKinds callArgNames
        = procedures)
  ∧ (procedures.filter (fun p =>
        procedureMatches p.sig callArgTypes callArgRanks callArgKinds callArgNames) = [] →
      resolveInterfaceProcedures procedures callArgTypes callArgRanks callArgKinds callArgNames
        = procedures)
  ∧ resolveInterfaceProcedures procedures callArgTypes callArgRanks callArgKinds callArgNames
      ≠ [] := by
  refine ⟨?_, ?_, ?_⟩
  · intro hall
    have hany : procedures.any (fun p => (numArgs p.sig).isSome) = false := by
      simp only [List.any_eq_false]
      intro p hp
      simp [hall p hp]
    simp [resolveInterfaceProcedures, hany]
  · intro hf
    simp [resolveInterfaceProcedures, hf]
  · cases hany : procedures.any (fun p => (numArgs p.sig).isSome) with
    | false => simpa [resolveInterfaceProcedures, hany] using hne
    | true =>
      cases hf : procedures.filter (fun p =>
          procedureMatches p.sig callArgTypes callArgRanks callArgKinds callArgNames) with
      | nil => simpa [resolveInterfaceProcedures, hany, hf] using hne
      | cons a t => simp [resolveInterfaceProcedures, hany, hf]

/-- Witness for C3: one member whose signature rejects the call; fallback
returns the full (nonempty) member list. -/
theorem c3_resolve_interface_fallback_witness :
    resolveInterfaceProcedures
      [⟨0, "compute_int", { argTypes := some ["integer"], numRequiredArgs := some 1 }⟩]
      ["character"] none none none
      = [⟨0, "compute_int", { argTypes := some ["integer"], numRequiredArgs := some 1 }⟩] := by
  exact (c3_resolve_interface_fallback
    [⟨0, "compute_int", { argTypes := some ["integer"], numRequiredArgs := some 1 }⟩]
    ["character"] none none none (by decide)).2.1 (by decide)

/-- C6: the arity window of `_procedure_matches`.  A procedure with parsed
signature info (N total arguments, R required) rejects any call whose
argument count lies outside `[R, N]`, regardless of types, ranks, kinds or
keywords. -/
theorem c6_arity_window (p : Proc) (tys : List String) (R : Nat)
    (hTy : p.argTypes = some tys) (hR : p.numRequiredArgs = some R)
    (callArgTypes : List String) (callArgRanks : Option (List Int))
    (callArgKinds : Option (List (Option String)))
    (callArgNames : Option (List (Option String)))
    (h : callArgTypes.length < R ∨ tys.length < callArgTypes.length) :
    procedureMatches p callArgTypes callArgRanks callArgKinds callArgNames = false := by
  have hna : numArgs p = some tys.length := by simp [numArgs, hTy]
  simp only [procedureMatches, hna, hR, Option.getD_some]
  rw [if_neg]
  rcases h with h | h
  · intro hc
    exact absurd hc.1 (Nat.not_le.2 h)
  · intro hc
    exact absurd hc.2 (Nat.not_le.2 h)

/-- Witness for C6: a two-argument procedure with one required argument
rejects a three-argument call. -/
theorem c6_arity_window_witness :
    procedureMatches
      { argTypes := some ["real", "integer"], numRequiredArgs := some 1 }
      ["real", "integer", "integer"] none none none = false := by
  exact c6_arity_window _ ["real", "integer"] 1 rfl rfl
    ["real", "integer", "integer"] none none none (by decide)

/-! ### Keyword-argument remapping (C7) -/

theorem truthy_some_of_ne_nil {α : Type} {l : List α} (h : l ≠ []) :
    truthy (some l) = some l := by
  cases l with
  | nil => exact absurd rfl h
  | cons x t => simp [truthy]

theorem idxMapGo_none (panl : Option (List String)) :
    ∀ (k i : Nat), idxMapGo panl none i k = some (List.range' i k) := by
  intro k
  induction k with
  | zero => intro i; simp [idxMapGo, List.range']
  | succ k ih => intro i; simp [idxMapGo, kwAt, truthy, List.range', ih]

theorem getD_map_some_append {α : Type} (x : α) (t : List α) :
    ∀ (pre : List α), ((pre ++ x :: t).map some).getD pre.length none = some x := by
  intro pre
  induction pre with
  | nil => rfl
  | cons p pt ih => exact ih

theorem idxMapGo_keywords (names : List String) :
    ∀ (ns pre : List String),
      (∀ kw ∈ ns, names.contains (lowerS kw) = true) →
      idxMapGo (some names) (some ((pre ++ ns).map some)) pre.length ns.length
        = some (ns.map (fun kw => names.indexOf (lowerS kw))) := by
  intro ns
  induction ns with
  | nil => intro pre h; simp [idxMapGo]
  | cons kw t ih =>
    intro pre h
    have hne : (pre ++ kw :: t).map some ≠ [] := by simp
    have hkwAt : kwAt (some ((pre ++ kw :: t).map some)) pre.length = some kw := by
      simp only [kwAt, truthy_some_of_ne_nil hne]
      exact getD_map_some_append kw t pre
    have hc : names.contains (lowerS kw) = true := h kw (List.mem_cons_self _ _)
    have hrec := ih (pre ++ [kw]) (fun kw' hkw' => h kw' (List.mem_cons_of_mem _ hkw'))
    rw [show (pre ++ [kw]) ++ t = pre ++ kw :: t by simp] at hrec
    rw [show (pre ++ [kw]).length = pre.length + 1 by simp] at hrec
    simp only [List.length_cons, idxMapGo, hkwAt]
    rw [if_pos hc, hrec]
    rfl

theorem idxMapGo_bad (names : List String) (cns : List (Option String)) (kw : String)
    (hbad : names.contains (lowerS kw) = false) :
    ∀ (k i j : Nat), i ≤ j → j < i + k → kwAt (some cns) j = some kw →
      idxMapGo (some names) (some cns) i k = none := by
  intro k
  induction k with
  | zero => intro i j hij hj _; exact absurd hj (by omega)
  | succ k ih =>
    intro i j hij hj hkw
    have hbad' : lowerS kw ∉ names := by simpa using hbad
    by_cases hji : j = i
    · subst hji
      simp [idxMapGo, hkw, hbad']
    · have hrec := ih (i + 1) j (by omega) (by omega) hkw
      simp only [idxMapGo]
      cases hat : kwAt (some cns) i with
      | none => simp [hrec]
      | some kw' =>
        by_cases hcon : lowerS kw' ∈ names
        · simp [hcon, hrec]
        · simp [hcon]

theorem perm_all_eq {α : Type} (f : α → Bool) {l l' : List α} (h : l.Perm l') :
    l.all f = l'.all f := by
  induction h with
  | nil => rfl
  | cons x _ ih => simp [List.all_cons, ih]
  | swap x y l => simp [List.all_cons, Bool.and_left_comm]
  | trans _ _ ih1 ih2 => exact ih1.trans ih2

theorem map_zip_proj1 {A B C : Type} :
    ∀ (a : List A) (b : List B) (c : List C), b.length = c.length →
      (a.zip (b.zip c)).map (fun x => (x.1, x.2.1)) = a.zip b := by
  intro a
  induction a with
  | nil => intro b c _; rfl
  | cons x t ih =>
    intro b c h
    cases b with
    | nil =>
      cases c with
      | nil => rfl
      | cons c0 ct => simp at h
    | cons b0 bt =>
      cases c with
      | nil => simp at h
      | cons c0 ct =>
        simp only [List.zip_cons_cons, List.map_cons]
        rw [ih bt ct (by simpa using h)]

theorem map_zip_proj2 {A B C D : Type} :
    ∀ (a : List A) (b : List B) (c : List C) (d : List D),
      b.length = c.length → c.length = d.length →
      (a.zip (b.zip (c.zip d))).map (fun x => (x.1, x.2.2.1)) = a.zip c := by
  intro a
  induction a with
  | nil => intro b c d _ _; rfl
  | cons x t ih =>
    intro b c d h1 h2
    cases b with
    | nil =>
      cases c with
      | nil => rfl
      | cons c0 ct => simp at h1
    | cons b0 bt =>
      cases c with
      | nil => simp at h1
      | cons c0 ct =>
        cases d with
        | nil => simp at h2
        | cons d0 dt =>
          simp only [List.zip_cons_cons, List.map_cons]
          rw [ih bt ct dt (by simpa using h1) (by simpa using h2)]

theorem map_zip_proj3 {A B C D : Type} :
    ∀ (a : List A) (b : List B) (c : List C) (d : List D),
      b.length = c.length → c.length = d.length →
      (a.zip (b.zip (c.zip d))).map (fun x => (x.1, x.2.2.2)) = a.zip d := by
  intro a
  induction a with
  | nil => intro b c d _ _; rfl
  | cons x t ih =>
    intro b c d h1 h2
    cases b with
    | nil =>
      cases c with
      | nil =>
        cases d with
        | nil => rfl
        | cons d0 dt => simp at h2
      | cons c0 ct => simp at h1
    | cons b0 bt =>
      cases c with
      | nil => simp at h1
      | cons c0 ct =>
        cases d with
        | nil => simp at h2
        | cons d0 dt =>
          simp only [List.zip_cons_cons, List.map_cons]
          rw [ih bt ct dt (by simpa using h1) (by simpa using h2)]

theorem axisBlock_perm_eq {β : Type} (compat : β → β → Bool) (dflt : β)
    (pv : Option (List β)) (m r : List Nat) (a a' : List β)
    (hperm : (m.zip a).Perm (r.zip a'))
    (hlen : a = [] ↔ a' = []) :
    axisBlock compat dflt m (some a) pv = axisBlock compat dflt r (some a') pv := by
  by_cases ha : a = []
  · have ha' : a' = [] := hlen.mp ha
    subst ha; subst ha'
    simp [axisBlock, truthy]
  · have ha' : a' ≠ [] := fun h => ha (hlen.mpr h)
    rw [axisBlock, axisBlock, truthy_some_of_ne_nil ha, truthy_some_of_ne_nil ha']
    cases truthy pv with
    | none => rfl
    | some pts =>
      show axisCheck compat dflt m a pts = axisCheck compat dflt r a' pts
      exact perm_all_eq _ hperm

theorem keyword_reorder_eq (p : Proc) (anames tys : List String)
    (hN : p.argNames = some anames) (hTy : p.argTypes = some tys) (hanames : anames ≠ [])
    (ns ts ts' : List String) (rs rs' : List Int) (ks ks' : List (Option String))
    (hns : ns.length = ts.length) (hrs : rs.length = ts.length) (hks : ks.length = ts.length)
    (hts' : ts'.length = ts.length) (hrs' : rs'.length = ts.length)
    (hks' : ks'.length = ts.length)
    (hkw : ∀ kw ∈ ns, (anames.map lowerS).contains (lowerS kw) = true)
    (hperm : ((ns.map (fun kw => (anames.map lowerS).indexOf (lowerS kw))).zip
        (ts.zip (rs.zip ks))).Perm
        ((List.range ts.length).zip (ts'.zip (rs'.zip ks')))) :
    procedureMatches p ts (some rs) (some ks) (some (ns.map some))
      = procedureMatches p ts' (some rs') (some ks') none := by
  set m := ns.map (fun kw => (anames.map lowerS).indexOf (lowerS kw)) with hm
  have hna : numArgs p = some tys.length := by simp [numArgs, hTy]
  simp only [procedureMatches, hna, hTy, hts']
  by_cases har : p.numRequiredArgs.getD tys.length ≤ ts.length ∧ ts.length ≤ tys.length
  · rw [if_pos har, if_pos har]
    have hkmap : idxMapGo ((truthy p.argNames).map (fun l => l.map lowerS))
        (some (ns.map some)) 0 ts.length = some m := by
      rw [hN, truthy_some_of_ne_nil hanames]
      simp only [Option.map_some']
      have h0 := idxMapGo_keywords (anames.map lowerS) ns [] hkw
      simpa [hns, hm] using h0
    have hpmap : idxMapGo ((truthy p.argNames).map (fun l => l.map lowerS)) none 0 ts.length
        = some (List.range ts.length) := by
      rw [idxMapGo_none, List.range_eq_range']
    simp only [hkmap, hpmap]
    have hzbc : ts.length = (rs.zip ks).length := by
      rw [List.length_zip, hrs, hks]
      simp
    have hzbc' : ts'.length = (rs'.zip ks').length := by
      rw [List.length_zip, hrs', hks', hts']
      simp
    have hperm1 : (m.zip ts).Perm ((List.range ts.length).zip ts') := by
      have hmp := hperm.map (fun x => (x.1, x.2.1))
      rwa [map_zip_proj1 m ts (rs.zip ks) hzbc,
        map_zip_proj1 (List.range ts.length) ts' (rs'.zip ks') hzbc'] at hmp
    have hperm2 : (m.zip rs).Perm ((List.range ts.length).zip rs') := by
      have hmp := hperm.map (fun x => (x.1, x.2.2.1))
      rwa [map_zip_proj2 m ts rs ks (by omega) (by omega),
        map_zip_proj2 (List.range ts.length) ts' rs' ks' (by omega) (by omega)] at hmp
    have hperm3 : (m.zip ks).Perm ((List.range ts.length).zip ks') := by
      have hmp := hperm.map (fun x => (x.1, x.2.2.2))
      rwa [map_zip_proj3 m ts rs ks (by omega) (by omega),
        map_zip_proj3 (List.range ts.length) ts' rs' ks' (by omega) (by omega)] at hmp
    have hiff_ts : (ts = []) ↔ (ts' = []) := by
      rw [← List.length_eq_zero, ← List.length_eq_zero, hts']
    have hiff_rs : (rs = []) ↔ (rs' = []) := by
      rw [← List.length_eq_zero, ← List.length_eq_zero, hrs, hrs']
    have hiff_ks : (ks = []) ↔ (ks' = []) := by
      rw [← List.length_eq_zero, ← List.length_eq_zero, hks, hks']
    rw [axisBlock_perm_eq typesCompatible "" (some tys) m (List.range ts.length)
        ts ts' hperm1 hiff_ts,
      axisBlock_perm_eq ranksCompatible 0 p.argRanks m (List.range ts.length)
        rs rs' hperm2 hiff_rs,
      axisBlock_perm_eq kindsCompatible none p.argKinds m (List.range ts.length)
        ks ks' hperm3 hiff_ks]
  · rw [if_neg har, if_neg har]

theorem keyword_absent_rejects (p : Proc) (anames tys : List String)
    (hN : p.argNames = some anames) (hTy : p.argTypes = some tys) (hanames : anames ≠ [])
    (callArgTypes : List String) (callArgRanks : Option (List Int))
    (callArgKinds : Option (List (Option String))) (cns : List (Option String))
    (kw : String) (j : Nat) (hj : j < callArgTypes.length)
    (hat : kwAt (some cns) j = some kw)
    (hbad : (anames.map lowerS).contains (lowerS kw) = false) :
    procedureMatches p callArgTypes callArgRanks callArgKinds (some cns) = false := by
  have hna : numArgs p = some tys.length := by simp [numArgs, hTy]
  simp only [procedureMatches, hna]
  by_cases har : p.numRequiredArgs.getD tys.length ≤ callArgTypes.length
      ∧ callArgTypes.length ≤ tys.length
  · rw [if_pos har]
    have hmap : idxMapGo ((truthy p.argNames).map (fun l => l.map lowerS))
        (some cns) 0 callArgTypes.length = none := by
      rw [hN, truthy_some_of_ne_nil hanames]
      simp only [Option.map_some']
      exact idxMapGo_bad (anames.map lowerS) cns kw hbad _ 0 j (Nat.zero_le _)
        (by omega) hat
    simp [hmap]
  · rw [if_neg har]

/-- C7: keyword-argument matching in `_procedure_matches`.  First part: for
a procedure with declared argument names, a call whose keyword names are a
case-insensitive rearrangement of the declared parameter order matches
exactly when the equivalent positional call (the same arguments brought
into declared order, stated as a permutation of index/argument pairs)
matches.  Second part: a call argument whose keyword name is absent from
the procedure's declared argument names rejects the procedure outright. -/
theorem c7_keyword_argument_matching :
    (∀ (p : Proc) (anames tys ns ts ts' : List String) (rs rs' : List Int)
        (ks ks' : List (Option String)),
        p.argNames = some anames → p.argTypes = some tys → anames ≠ [] →
        ns.length = ts.length → rs.length = ts.length → ks.length = ts.length →
        ts'.length = ts.length → rs'.length = ts.length → ks'.length = ts.length →
        (∀ kw ∈ ns, (anames.map lowerS).contains (lowerS kw) = true) →
        ((ns.map (fun kw => (anames.map lowerS).indexOf (lowerS kw))).zip
            (ts.zip (rs.zip ks))).Perm
          ((List.range ts.length).zip (ts'.zip (rs'.zip ks'))) →
        procedureMatches p ts (some rs) (some ks) (some (ns.map some))
          = procedureMatches p ts' (some rs') (some ks') none)
  ∧ (∀ (p : Proc) (anames tys callArgTypes : List String)
        (callArgRanks : Option (List Int)) (callArgKinds : Option (List (Option String)))
        (cns : List (Option String)) (kw : String) (j : Nat),
        p.argNames = some anames → p.argTypes = some tys → anames ≠ [] →
        j < callArgTypes.length → kwAt (some cns) j = some kw →
        (anames.map lowerS).contains (lowerS kw) = false →
        procedureMatches p callArgTypes callArgRanks callArgKinds (some cns) = false) :=
  ⟨fun p anames tys ns ts ts' rs rs' ks ks' hN hTy ha h1 h2 h3 h4 h5 h6 hkw hp =>
      keyword_reorder_eq p anames tys hN hTy ha ns ts ts' rs rs' ks ks'
        h1 h2 h3 h4 h5 h6 hkw hp,
   fun p anames tys cats crs cks cns kw j hN hTy ha hj hat hbad =>
      keyword_absent_rejects p anames tys hN hTy ha cats crs cks cns kw j hj hat hbad⟩

/-- Witness for C7 at a concrete procedure: a keyword call in a different
order than the declared parameters agrees with the reordered positional
call, and an unknown keyword name rejects. -/
theorem c7_keyword_argument_matching_witness :
    (procedureMatches
        { argNames := some ["arr", "scale", "offset"],
          argTypes := some ["real", "real", "integer"],
          argRanks := some [1, 0, 0],
          argKinds := some [none, none, none],
          numRequiredArgs := some 3 }
        ["real", "integer", "real"] (some [0, 0, 1]) (some [none, none, none])
        (some [some "scale", some "offset", some "arr"])
      = procedureMatches
          { argNames := some ["arr", "scale", "offset"],
            argTypes := some ["real", "real", "integer"],
            argRanks := some [1, 0, 0],
            argKinds := some [none, none, none],
            numRequiredArgs := some 3 }
          ["real", "real", "integer"] (some [1, 0, 0]) (some [none, none, none]) none)
  ∧ procedureMatches
      { argNames := some ["arr", "scale", "offset"],
        argTypes := some ["real", "real", "integer"],
        argRanks := some [1, 0, 0],
        argKinds := some [none, none, none],
        numRequiredArgs := some 3 }
      ["real", "real", "integer"] none none (some [some "bogus", none, none]) = false := by
  constructor
  · exact c7_keyword_argument_matching.1 _ ["arr", "scale", "offset"]
      ["real", "real", "integer"] ["scale", "offset", "arr"]
      ["real", "integer", "real"] ["real", "real", "integer"]
      [0, 0, 1] [1, 0, 0] [none, none, none] [none, none, none]
      rfl rfl (by decide) (by decide) (by decide) (by decide) (by decide) (by decide)
      (by decide) (by decide) (by decide)
  · exact c7_keyword_argument_matching.2 _ ["arr", "scale", "offset"]
      ["real", "real", "integer"] ["real", "real", "integer"] none none
      [some "bogus", none, none] "bogus" 0
      rfl rfl (by decide) (by decide) (by decide) (by decide)

/-! ## Parse state, variable table and variable-type inference
(`parse_state.py`, `variable_info.py`, `ParseTree.get_variable`,
`ParseTree._infer_variable_type`) -/

/-- `variable_info.VariableInfo`. -/
structure VariableInfo where
  type : String
  rank : Int := 0
  kind : Option String := none
deriving DecidableEq, Repr

/-- The current routine tracked by `ParseState`: whether it is a Function,
its registry key, and its bare name. -/
structure RoutineRef where
  isFunction : Bool
  key : String
  name : String
deriving DecidableEq, Repr

/-- The kind of the current program unit. -/
inductive UKind where
  | module | program | subprogram
deriving DecidableEq, Repr

/-- `parse_state.ParseState` (interned objects are referred to by key/name). -/
structure Curr where
  program : Option String := none
  subprogram : Option String := none
  module : Option String := none
  usedModule : Option String := none
  routine : Option RoutineRef := none
  parentRoutine : Option RoutineRef := none
  derivedType : Option (String × String) := none
deriving DecidableEq, Repr

/-- `ParseState.program_unit`: `self.module or self.subprogram or self.program`. -/
def programUnitOf (c : Curr) : Option (UKind × String) :=
  match c.module with
  | some m => some (UKind.module, m)
  | none =>
    match c.subprogram with
    | some s => some (UKind.subprogram, s)
    | none =>
      match c.program with
      | some p => some (UKind.program, p)
      | none => none

/-- Name of the current program unit.  (The Python code dereferences
`program_unit.name` only in states where a program unit is open; the
default is never reached in the embedded flows.) -/
def programUnitName (c : Curr) : String :=
  match programUnitOf c with
  | some pu => pu.2
  | none => ""

/-- `ParseState.get_scope_key`. -/
def getScopeKey (c : Curr) : String :=
  match c.routine with
  | some r =>
    match c.parentRoutine with
    | some p => programUnitName c ++ "::" ++ p.name ++ "::" ++ r.name
    | none => programUnitName c ++ "::" ++ r.name
  | none =>
    match programUnitOf c with
    | some pu => pu.2
    | none => "__global__"

/-- One scope of the `ParseTree.variables` table: lowercased variable name
to `VariableInfo`, keyed by scope key. -/
def varLook (varTab : List (String × List (String × VariableInfo)))
    (scopeKey nameLower : String) : Option VariableInfo :=
  match lookupA varTab scopeKey with
  | some tbl => lookupA tbl nameLower
  | none => none

/-- `ParseTree.get_variable`: current routine scope, then parent routine
scope (one nesting level), then program-unit scope. -/
def getVariable (varTab : List (String × List (String × VariableInfo))) (c : Curr)
    (name : String) : Option VariableInfo :=
  let nameLower := lowerS name
  let fromRoutine : Option VariableInfo :=
    match c.routine with
    | some _ =>
      match varLook varTab (getScopeKey c) nameLower with
      | some vi => some vi
      | none =>
        match c.parentRoutine with
        | some p => varLook varTab (programUnitName c ++ "::" ++ p.name) nameLower
        | none => none
    | none => none
  match fromRoutine with
  | some vi => some vi
  | none =>
    match programUnitOf c with
    | some pu => varLook varTab pu.2 nameLower
    | none => none

/-- Accumulated state of the scanning loop in `_infer_variable_type`. -/
structure InferSt where
  varName : Option String := none
  hasSubscripts : Bool := false
  subscriptCount : Nat := 0
  hasTriplet : Bool := false
  funcRefName : Option String := none
  funcRefLevel : Option Nat := none
deriving DecidableEq, Repr

/-- The line-scanning loop of `_infer_variable_type`: stop at a line whose
level drops to the start level; record a FunctionReference designator name;
skip subscript lines nested under it; otherwise record `DataRef -> Name`
variable names, `ArrayElement` markers, `SectionSubscript` counts and
`SubscriptTriplet` markers, in that order of precedence. -/
def inferScan (startLevel : Nat) : List String → InferSt → InferSt
  | [], st => st
  | line :: rest, st =>
    let lvl := level line
    if lvl ≤ startLevel then st
    else if hasSub ("ProcedureDesignator -> Name = " ++ sqS) line && st.funcRefName.isNone then
      match nameEq line with
      | some w =>
        inferScan startLevel rest { st with funcRefName := some w, funcRefLevel := some lvl }
      | none => inferScan startLevel rest st
    else if (match st.funcRefLevel with | some fl => decide (fl < lvl) | none => false) then
      inferScan startLevel rest st
    else if hasSub ("DataRef -> Name = " ++ sqS) line then
      match nameEq line with
      | some w => inferScan startLevel rest { st with varName := some w }
      | none => inferScan startLevel rest st
    else if hasSub "ArrayElement" line then
      inferScan startLevel rest { st with hasSubscripts := true }
    else if hasSub "SectionSubscript" line then
      inferScan startLevel rest { st with subscriptCount := st.subscriptCount + 1 }
    else if hasSub "SubscriptTriplet" line then
      inferScan startLevel rest { st with hasTriplet := true }
    else inferScan startLevel rest st

/-- `ParseTree._infer_variable_type`: infer (type, rank, kind) of a variable
reference from the lines of an argument expression, adjusting the declared
rank by the detected subscripting. -/
def inferVariableType (varTab : List (String × List (String × VariableInfo))) (c : Curr)
    (lines : List String) (startLevel : Nat) : String × Int × Option String :=
  let hasStructureComponent := lines.any (fun l => hasSub "StructureComponent" l)
  let st := inferScan startLevel lines {}
  let after : Option String × Bool × Nat :=
    match st.varName with
    | some v => (some v, st.hasSubscripts, st.subscriptCount)
    | none =>
      match st.funcRefName with
      | some f =>
        match getVariable varTab c f with
        | some _ => (some f, true, max st.subscriptCount 1)
        | none => (none, st.hasSubscripts, st.subscriptCount)
      | none => (none, st.hasSubscripts, st.subscriptCount)
  match after.1 with
  | some v =>
    (match getVariable varTab c v with
     | some vi =>
       if hasStructureComponent then ("unknown", -1, none)
       else if after.2.1 && decide (0 < after.2.2) then
         (if st.hasTriplet then
            (vi.type, max 0 (vi.rank - ((after.2.2 : Int) - 1)), vi.kind)
          else
            (vi.type, max 0 (vi.rank - (after.2.2 : Int)), vi.kind))
       else (vi.type, vi.rank, vi.kind)
     | none => ("unknown", -1, none))
  | none => ("unknown", -1, none)

/-- C8 (code evaluated at the failing input): the rank-3 variable `fields`
referenced as `fields(i,:,:)` — one scalar subscript and two subscript
triplets — is inferred at rank 0, because every one of the three
`SectionSubscript` lines increments the scalar-subscript count (the
triplet lines also contain the text `SectionSubscript`, so the
`SubscriptTriplet` branch is never reached) and the declared rank 3 is
reduced by 3. -/
theorem c8_rank_inference_at_failing_input :
    inferVariableType
      [("testmod", [("fields", { type := "real", rank := 3, kind := none })])]
      { module := some "testmod" }
      [ "| | | | ActualArg -> Expr = " ++ qt "fields(i,:,:)",
        "| | | | | Designator -> DataRef -> ArrayElement",
        "| | | | | | DataRef -> Name = " ++ qt "fields",
        "| | | | | | SectionSubscript -> Integer -> Expr = " ++ qt "i",
        "| | | | | | SectionSubscript -> SubscriptTriplet",
        "| | | | | | SectionSubscript -> SubscriptTriplet" ]
      3
      = ("real", 0, none) := by decide

/-! ## Call recording and name resolution
(`ParseTree.find_named_entity`, `ParseTree._record_call_dependencies`) -/

/-- A resolved named entity: a plain callable or a generic interface with
its member procedures. -/
inductive FoundEnt where
  | call (cid : Nat) (name : String) (sig : Proc)
  | intf (iid : Nat) (name : String) (procedures : List PMem)
deriving DecidableEq, Repr

/-- A program unit as seen by `find_named_entity`: directly owned
subroutines, functions and interfaces, plus the `use` import lists
(`used_names_lists`, keyed by the used unit's index, with the `*` sentinel
for unrestricted imports) and rename lists. -/
structure UnitW where
  name : String
  subroutines : List (Nat × String × Proc) := []
  functions : List (Nat × String × Proc) := []
  interfaces : List (Nat × String × List PMem) := []
  usedNames : List (Nat × List String) := []
  usedRenames : List (Nat × List (String × String)) := []
deriving DecidableEq, Repr

/-- The cross-file unit collection shared through the registry. -/
structure World where
  units : List UnitW
deriving DecidableEq, Repr

/-- The loop over used modules in `find_named_entity.dfs`: a `*`-imported
module is searched through the shared-visited dfs (given as `dfsRec`); a
module whose only-list contains the name returns a fresh
`find_named_entity` from it (given as `feRec`) unconditionally, even when
that lookup fails. -/
def usedNamesLoop (dfsRec : Nat → List (Nat × String) → Option FoundEnt × List (Nat × String))
    (feRec : Nat → Option FoundEnt) (name : String) :
    List (Nat × List String) → List (Nat × String) →
      Option (Option FoundEnt) × List (Nat × String)
  | [], visited => (none, visited)
  | (um, names) :: rest, visited =>
    let step :=
      if names.contains "*" then dfsRec um visited else (none, visited)
    match step with
    | (some e, visited1) => (some (some e), visited1)
    | (none, visited1) =>
      if names.contains name then (some (feRec um), visited1)
      else usedNamesLoop dfsRec feRec name rest visited1

/-- The rename loop of `find_named_entity.dfs`: the first rename whose
alias matches the name triggers a fresh lookup of the original name in the
aliased module; a failed lookup there stops the whole search. -/
def renamesLoop (feRecN : Nat → String → Option FoundEnt) (name : String) :
    List (Nat × List (String × String)) → Option FoundEnt
  | [] => none
  | (um, renames) :: rest =>
    match renames.find? (fun pr => pr.1 == name) with
    | some pr =>
      (match feRecN um pr.2 with
       | some e => some e
       | none => none)
    | none => renamesLoop feRecN name rest

/-- `find_named_entity.dfs`, with explicit recursion fuel standing in for
the Python recursion limit: check the visited set, then the unit's own
subroutines, functions and interfaces, then recurse through used modules
and rename aliases. -/
def dfsFind (w : World) (name : String) : Nat → Nat → List (Nat × String) →
    Option FoundEnt × List (Nat × String)
  | 0, _, visited => (none, visited)
  | fuel + 1, u, visited =>
    if (u, name) ∈ visited then (none, visited)
    else
      let visited1 := visited ++ [(u, name)]
      match w.units[u]? with
      | none => (none, visited1)
      | some unit =>
        match unit.subroutines.find? (fun e => e.2.1 == name) with
        | some e => (some (.call e.1 e.2.1 e.2.2), visited1)
        | none =>
          match unit.functions.find? (fun e => e.2.1 == name) with
          | some e => (some (.call e.1 e.2.1 e.2.2), visited1)
          | none =>
            match unit.interfaces.find? (fun e => e.2.1 == name) with
            | some e => (some (.intf e.1 e.2.1 e.2.2), visited1)
            | none =>
              match usedNamesLoop (fun u' v' => dfsFind w name fuel u' v')
                  (fun u' => (dfsFind w name fuel u' []).1) name unit.usedNames visited1 with
              | (some r, visited2) => (r, visited2)
              | (none, visited2) =>
                (renamesLoop (fun u' n' => (dfsFind w n' fuel u' []).1) name
                   unit.usedRenames,
                 visited2)

/-- `ParseTree.find_named_entity`, from an origin program unit. -/
def findNamedEntity (w : World) (fuel : Nat) (originUnit : Nat) (name : String) :
    Option FoundEnt :=
  (dfsFind w name fuel originUnit []).1

/-- The call-graph side state mutated by `_record_call_dependencies`:
`callees`/`callers` membership (edge present on the caller object / on the
callee object) and the two unfound-call diagnostic lists. -/
structure CGState where
  callees : List (Nat × Nat) := []
  callers : List (Nat × Nat) := []
  unfoundSubroutineCalls : List (String × String) := []
  unfoundFunctionCalls : List (String × String) := []
deriving DecidableEq, Repr

/-- `caller.callees.add(callee)` paired with `callee.callers.add(caller)`. -/
def addEdge (caller callee : Nat) (st : CGState) : CGState :=
  { st with
    callees := addS (caller, callee) st.callees,
    callers := addS (callee, caller) st.callers }

/-- The two-step callee resolution at the top of
`_record_call_dependencies`: scoped lookup from the caller, then, when that
fails and a type-bound binding supplied a defining scope, lookup from that
scope. -/
def resolveCallee (w : World) (fuel : Nat) (callerUnit : Nat) (calleeName : String)
    (definingScope : Option Nat) : Option FoundEnt :=
  match findNamedEntity w fuel callerUnit calleeName with
  | some e => some e
  | none =>
    match definingScope with
    | some ds => findNamedEntity w fuel ds calleeName
    | none => none

/-- `ParseTree._record_call_dependencies`.  The caller is given by its node
id, its name, and its enclosing program-unit index (the source derives the
origin unit from the caller object). -/
def recordCallDependencies (w : World) (fuel : Nat) (callerId : Nat) (callerName : String)
    (callerUnit : Nat) (calleeName : String) (callArgTypes : List String)
    (callArgRanks : Option (List Int)) (callArgKinds : Option (List (Option String)))
    (callArgNames : Option (List (Option String))) (isFunction : Bool)
    (definingScope : Option Nat) (st : CGState) : CGState :=
  match resolveCallee w fuel callerUnit calleeName definingScope with
  | none =>
    if isFunction then
      { st with
        unfoundFunctionCalls := st.unfoundFunctionCalls ++ [(callerName, calleeName)] }
    else if !(startsWithS (lowerS calleeName) "mpi_") then
      { st with
        unfoundSubroutineCalls := st.unfoundSubroutineCalls ++ [(callerName, calleeName)] }
    else st
  | some (.intf iid _ procedures) =>
    let matchingProcs := resolveInterfaceProcedures procedures callArgTypes callArgRanks
      callArgKinds callArgNames
    let st1 := matchingProcs.foldl (fun s p => addEdge callerId p.pid s) st
    addEdge callerId iid st1
  | some (.call cid _ _) => addEdge callerId cid st

/-- One call site as handed to `_record_call_dependencies` during the call
pass. -/
structure CallDesc where
  callerId : Nat
  callerName : String
  callerUnit : Nat
  calleeName : String
  callArgTypes : List String
  callArgRanks : Option (List Int)
  callArgKinds : Option (List (Option String))
  callArgNames : Option (List (Option String))
  isFunction : Bool
  definingScope : Option Nat
  fuel : Nat
deriving Repr

/-- A sequence of `_record_call_dependencies` invocations. -/
def runCalls (w : World) (cs : List CallDesc) (st : CGState) : CGState :=
  cs.foldl (fun s c => recordCallDependencies w c.fuel c.callerId c.callerName c.callerUnit
    c.calleeName c.callArgTypes c.callArgRanks c.callArgKinds c.callArgNames
    c.isFunction c.definingScope s) st

/-- No call edge in only one direction. -/
def edgeInvB (st : CGState) : Bool :=
  st.callees.all (fun p => decide ((p.2, p.1) ∈ st.callers))
    && st.callers.all (fun p => decide ((p.2, p.1) ∈ st.callees))

theorem mem_addS {α : Type} [DecidableEq α] (x y : α) (l : List α) :
    x ∈ addS y l ↔ x = y ∨ x ∈ l := by
  unfold addS
  by_cases h : y ∈ l
  · simp only [if_pos h]
    constructor
    · exact fun hx => Or.inr hx
    · rintro (rfl | hx)
      · exact h
      · exact hx
  · simp only [if_neg h, List.mem_append, List.mem_singleton]
    tauto

theorem addEdge_inv (a b : Nat) (st : CGState) (h : edgeInvB st = true) :
    edgeInvB (addEdge a b st) = true := by
  simp only [edgeInvB, Bool.and_eq_true, List.all_eq_true, decide_eq_true_eq] at h ⊢
  obtain ⟨h1, h2⟩ := h
  constructor
  · intro p hp
    simp only [addEdge] at hp ⊢
    rw [mem_addS] at hp
    rw [mem_addS]
    rcases hp with rfl | hp
    · left; rfl
    · right; exact h1 p hp
  · intro p hp
    simp only [addEdge] at hp ⊢
    rw [mem_addS] at hp
    rw [mem_addS]
    rcases hp with rfl | hp
    · left; rfl
    · right; exact h2 p hp

theorem foldl_addEdge_inv (caller : Nat) (ps : List PMem) (st : CGState)
    (h : edgeInvB st = true) :
    edgeInvB (ps.foldl (fun s p => addEdge caller p.pid s) st) = true := by
  induction ps generalizing st with
  | nil => simpa using h
  | cons p t ih => exact ih _ (addEdge_inv _ _ _ h)

theorem recordCallDependencies_inv (w : World) (fuel : Nat) (callerId : Nat)
    (callerName : String) (callerUnit : Nat) (calleeName : String)
    (callArgTypes : List String) (callArgRanks : Option (List Int))
    (callArgKinds : Option (List (Option String)))
    (callArgNames : Option (List (Option String))) (isFunction : Bool)
    (definingScope : Option Nat) (st : CGState) (h : edgeInvB st = true) :
    edgeInvB (recordCallDependencies w fuel callerId callerName callerUnit calleeName
      callArgTypes callArgRanks callArgKinds callArgNames isFunction definingScope st)
      = true := by
  unfold recordCallDependencies
  cases resolveCallee w fuel callerUnit calleeName definingScope with
  | none =>
    cases isFunction with
    | true => exact h
    | false =>
      by_cases hm : startsWithS (lowerS calleeName) "mpi_" = true
      · simp only [hm, Bool.not_true, Bool.false_eq_true, if_false, Bool.true_eq_false]
        exact h
      · simp only [Bool.not_eq_true] at hm
        simp only [hm, Bool.not_false, if_true, Bool.false_eq_true]
        exact h
  | some e =>
    cases e with
    | intf iid nm procedures => exact addEdge_inv _ _ _ (foldl_addEdge_inv _ _ _ h)
    | call cid nm sig => exact addEdge_inv _ _ _ h

/-- C4: bidirectional call edges.  `_record_call_dependencies` updates both
sides of every edge it inserts — for plain callable targets, interface
targets, and each matched interface member — so after any sequence of
invocations, a state with no one-directional edge still has none. -/
theorem c4_call_edges_bidirectional (w : World) (cs : List CallDesc) (st : CGState)
    (h : edgeInvB st = true) : edgeInvB (runCalls w cs st) = true := by
  induction cs generalizing st with
  | nil => simpa [runCalls] using h
  | cons c t ih =>
    simp only [runCalls, List.foldl_cons]
    exact ih _ (recordCallDependencies_inv _ _ _ _ _ _ _ _ _ _ _ _ _ h)

/-- Witness for C4: a concrete world with a callable target and an
interface target, starting from the empty state. -/
theorem c4_call_edges_bidirectional_witness :
    edgeInvB (runCalls
      ⟨[{ name := "m",
          subroutines := [(1, "target", {})],
          interfaces := [(2, "generic", [⟨3, "generic_a", {}⟩])] }]⟩
      [⟨0, "caller", 0, "target", [], none, none, none, false, none, 3⟩,
       ⟨0, "caller", 0, "generic", [], none, none, none, false, none, 3⟩]
      {}) = true := by
  exact c4_call_edges_bidirectional _ _ {} (by decide)

/-- C5 (counterexample): two unresolved call sites whose callee names begin
with `MPI` case-insensitively are not dropped — a function-reference call
to `mpi_wtime` is recorded in `unfound_function_calls`, and a
subroutine call to `MPIX_Query_cuda_support` (whose lowercase form does
not start with `mpi_`) is recorded in `unfound_subroutine_calls`. -/
theorem c5_mpi_calls_recorded_counterexample :
    ((recordCallDependencies ⟨[{ name := "caller_mod" }]⟩ 3 0 "foo" 0 "mpi_wtime"
        [] none none none true none {}).unfoundFunctionCalls
        = [("foo", "mpi_wtime")]
      ∧ startsWithS (lowerS "mpi_wtime") "mpi" = true)
  ∧ ((recordCallDependencies ⟨[{ name := "caller_mod" }]⟩ 3 0 "foo" 0
        "MPIX_Query_cuda_support" [] none none none false none {}).unfoundSubroutineCalls
        = [("foo", "MPIX_Query_cuda_support")]
      ∧ startsWithS (lowerS "MPIX_Query_cuda_support") "mpi" = true) := by
  refine ⟨⟨?_, ?_⟩, ?_, ?_⟩ <;> decide

/-- C5 (amended): when the callee cannot be resolved, a subroutine-call
site is silently dropped exactly when the callee name's lowercase form
starts with `mpi_` — a subroutine call whose name does not (even one
beginning with `MPI`, like `MPIX_...`) is appended to
`unfound_subroutine_calls` — and a function-reference call is always
appended to `unfound_function_calls`, whatever its name. -/
theorem c5_mpi_suppression_amended (w : World) (fuel : Nat) (callerId : Nat)
    (callerName : String) (callerUnit : Nat) (calleeName : String)
    (callArgTypes : List String) (callArgRanks : Option (List Int))
    (callArgKinds : Option (List (Option String)))
    (callArgNames : Option (List (Option String)))
    (definingScope : Option Nat) (st : CGState)
    (hunres : resolveCallee w fuel callerUnit calleeName definingScope = none) :
    (startsWithS (lowerS calleeName) "mpi_" = true →
      recordCallDependencies w fuel callerId callerName callerUnit calleeName
        callArgTypes callArgRanks callArgKinds callArgNames false definingScope st = st)
  ∧ (startsWithS (lowerS calleeName) "mpi_" = false →
      recordCallDependencies w fuel callerId callerName callerUnit calleeName
        callArgTypes callArgRanks callArgKinds callArgNames false definingScope st
        = { st with
            unfoundSubroutineCalls :=
              st.unfoundSubroutineCalls ++ [(callerName, calleeName)] })
  ∧ recordCallDependencies w fuel callerId callerName callerUnit calleeName
      callArgTypes callArgRanks callArgKinds callArgNames true definingScope st
      = { st with
          unfoundFunctionCalls := st.unfoundFunctionCalls ++ [(callerName, calleeName)] } := by
  refine ⟨?_, ?_, ?_⟩
  · intro hm
    unfold recordCallDependencies
    rw [hunres]
    simp [hm]
  · intro hm
    unfold recordCallDependencies
    rw [hunres]
    simp [hm]
  · unfold recordCallDependencies
    rw [hunres]
    rfl

/-- Witness for C5's amended statement: in an empty world, a subroutine
call to `mpi_send` is dropped, a subroutine call to
`MPIX_Query_cuda_support` is appended to the unfound-subroutine list, and
a function reference to `mpi_send` is appended to the unfound-function
list. -/
theorem c5_mpi_suppression_amended_witness :
    (recordCallDependencies ⟨[{ name := "caller_mod" }]⟩ 3 0 "foo" 0 "mpi_send"
      [] none none none false none {} = ({} : CGState))
  ∧ (recordCallDependencies ⟨[{ name := "caller_mod" }]⟩ 3 0 "foo" 0
      "MPIX_Query_cuda_support" [] none none none false none {}
      = { unfoundSubroutineCalls := [("foo", "MPIX_Query_cuda_support")] })
  ∧ recordCallDependencies ⟨[{ name := "caller_mod" }]⟩ 3 0 "foo" 0 "mpi_send"
      [] none none none true none {}
      = { unfoundFunctionCalls := [("foo", "mpi_send")] } := by
  have h1 := c5_mpi_suppression_amended ⟨[{ name := "caller_mod" }]⟩ 3 0 "foo" 0 "mpi_send"
    [] none none none none ({} : CGState) (by decide)
  have h2 := c5_mpi_suppression_amended ⟨[{ name := "caller_mod" }]⟩ 3 0 "foo" 0
    "MPIX_Query_cuda_support" [] none none none none ({} : CGState) (by decide)
  exact ⟨h1.1 (by decide), h2.2.1 (by decide), h1.2.2⟩

/-! ## The structure pass (`ParseTree.parse_structure` and its recognizers)

State is threaded explicitly: `PT` holds the current line, the remaining
(stripped) lines, the `ParseState`, the interned store, the variable table
and the file path/stem.  Loops that consume lines carry recursion fuel
(always instantiated with more fuel than remaining lines, since every
iteration consumes at least one line); reading past the end of the line
stream models the `StopIteration` of the exhausted generator.  Python
assertion and value errors are `Except.error`. -/

/-- A `Module`/`Program`/`Subprogram` node (`parse_node.ProgramUnit`):
scope import lists plus sets of directly-owned entities, stored as keys. -/
structure UnitD where
  name : String
  usedNames : List (String × List String) := []
  usedRenames : List (String × List (String × String)) := []
  subroutines : List String := []
  functions : List String := []
  interfaces : List String := []
  derivedTypes : List String := []
  parseTreePath : Option String := none
deriving DecidableEq, Repr

/-- A `Subroutine`/`Function` node (`parse_node.Callable`). -/
structure CallD where
  name : String
  programUnit : String
  parent : Option String := none
  usedNames : List (String × List String) := []
  usedRenames : List (String × List (String × String)) := []
  derivedTypes : List String := []
  numRequiredArgs : Option Nat := none
  argNames : Option (List String) := none
  argTypes : Option (List String) := none
  argRanks : Option (List Int) := none
  argKinds : Option (List (Option String)) := none
deriving DecidableEq, Repr

/-- A `parse_node.DerivedType` node.  `bindings` is `none` because the
source's `DerivedType.__init__` never initializes the attribute; the
type-bound-binding recognizer therefore raises `AttributeError` when it
tries to record into it. -/
structure DerivedTypeD where
  name : String
  scopeName : String
  bindings : Option (List (String × String)) := none
  parentTypeName : Option String := none
deriving DecidableEq, Repr

/-- The contents of the interned store during the structure pass, one
key-indexed table per node class (`NodeRegistry._store`). -/
structure PTStore where
  modules : List (String × UnitD) := []
  programs : List (String × UnitD) := []
  subprograms : List (String × UnitD) := []
  subroutines : List (String × CallD) := []
  functions : List (String × CallD) := []
  derivedTypes : List (String × DerivedTypeD) := []
deriving DecidableEq, Repr

/-- The per-file parse state: cursor (`line`, remaining lines), the
`ParseState`, the shared store, the variable table and the file path. -/
structure PT where
  line : String := ""
  rest : List String := []
  curr : Curr := {}
  store : PTStore := {}
  varTab : List (String × List (String × VariableInfo)) := []
  pathStr : String := ""
  stem : String := ""
deriving DecidableEq, Repr

/-- A reference to `ParseState.scope`: a program unit or a callable. -/
inductive ScopeRef where
  | unit (k : UKind) (name : String)
  | callable (isFunction : Bool) (key : String) (name : String)
deriving DecidableEq, Repr

/-- `ParseState.scope`: the routine if one is open, else the program unit. -/
def scopeOf (c : Curr) : Option ScopeRef :=
  match c.routine with
  | some r => some (.callable r.isFunction r.key r.name)
  | none =>
    match programUnitOf c with
    | some pu => some (.unit pu.1 pu.2)
    | none => none

/-- `Scope.name` of the referenced scope object. -/
def scopeRefName (sc : ScopeRef) : String :=
  match sc with
  | .unit _ n => n
  | .callable _ _ n => n

def getUnitD (st : PTStore) (k : UKind) (name : String) : Option UnitD :=
  match k with
  | .module => lookupA st.modules name
  | .program => lookupA st.programs name
  | .subprogram => lookupA st.subprograms name

def setUnitD (st : PTStore) (k : UKind) (name : String) (u : UnitD) : PTStore :=
  match k with
  | .module => { st with modules := setA st.modules name u }
  | .program => { st with programs := setA st.programs name u }
  | .subprogram => { st with subprograms := setA st.subprograms name u }

def getCallD (st : PTStore) (isFn : Bool) (key : String) : Option CallD :=
  if isFn then lookupA st.functions key else lookupA st.subroutines key

def setCallD (st : PTStore) (isFn : Bool) (key : String) (c : CallD) : PTStore :=
  if isFn then { st with functions := setA st.functions key c }
  else { st with subroutines := setA st.subroutines key c }

/-- `nr.Module(name)`: construct-or-fetch. -/
def nrModule (name : String) (st : PTStore) : PTStore :=
  match lookupA st.modules name with
  | some _ => st
  | none => { st with modules := setA st.modules name { name := name } }

/-- `nr.Program(name)`: construct-or-fetch. -/
def nrProgram (name : String) (st : PTStore) : PTStore :=
  match lookupA st.programs name with
  | some _ => st
  | none => { st with programs := setA st.programs name { name := name } }

/-- `nr.Subprogram(name)`: construct-or-fetch. -/
def nrSubprogram (name : String) (st : PTStore) : PTStore :=
  match lookupA st.subprograms name with
  | some _ => st
  | none => { st with subprograms := setA st.subprograms name { name := name } }

/-- `nr.Subroutine(...)` / `nr.Function(...)`: construct-or-fetch under the
`Callable.key`. -/
def nrCallable (isFn : Bool) (key name unit : String) (parent : Option String)
    (st : PTStore) : PTStore :=
  match getCallD st isFn key with
  | some _ => st
  | none => setCallD st isFn key { name := name, programUnit := unit, parent := parent }

/-- `module.parse_tree_path = self.parse_tree_path`. -/
def setModulePath (name path : String) (st : PTStore) : PTStore :=
  match lookupA st.modules name with
  | some u => { st with modules := setA st.modules name { u with parseTreePath := some path } }
  | none => st

/-- `program.parse_tree_path = self.parse_tree_path`. -/
def setProgramPath (name path : String) (st : PTStore) : PTStore :=
  match lookupA st.programs name with
  | some u => { st with programs := setA st.programs name { u with parseTreePath := some path } }
  | none => st

/-- `program_unit.functions.add` / `program_unit.subroutines.add`. -/
def addCallableToUnit (uk : UKind) (uname : String) (isFn : Bool) (key : String)
    (st : PTStore) : PTStore :=
  match getUnitD st uk uname with
  | none => st
  | some u =>
    let u' := if isFn then { u with functions := addS key u.functions }
              else { u with subroutines := addS key u.subroutines }
    setUnitD st uk uname u'

/-- `scope.derived_types.add(dt)` performed by `DerivedType.__init__`. -/
def addDerivedToScope (st : PTStore) (sc : ScopeRef) (dtKey : String) : PTStore :=
  match sc with
  | .unit k n =>
    match getUnitD st k n with
    | some u => setUnitD st k n { u with derivedTypes := addS dtKey u.derivedTypes }
    | none => st
  | .callable isFn key _ =>
    match getCallD st isFn key with
    | some c => setCallD st isFn key { c with derivedTypes := addS dtKey c.derivedTypes }
    | none => st

/-- The scope's `used_names_lists` and `used_renames_lists`. -/
def getScopeLists (st : PTStore) (sc : ScopeRef) :
    Option (List (String × List String) × List (String × List (String × String))) :=
  match sc with
  | .unit k n => (getUnitD st k n).map (fun u => (u.usedNames, u.usedRenames))
  | .callable isFn key _ => (getCallD st isFn key).map (fun c => (c.usedNames, c.usedRenames))

def setScopeLists (st : PTStore) (sc : ScopeRef) (un : List (String × List String))
    (ur : List (String × List (String × String))) : PTStore :=
  match sc with
  | .unit k n =>
    match getUnitD st k n with
    | some u => setUnitD st k n { u with usedNames := un, usedRenames := ur }
    | none => st
  | .callable isFn key _ =>
    match getCallD st isFn key with
    | some c => setCallD st isFn key { c with usedNames := un, usedRenames := ur }
    | none => st

/-- `ParseTree.add_variable`. -/
def addVar (vt : List (String × List (String × VariableInfo))) (scopeKey name : String)
    (vi : VariableInfo) : List (String × List (String × VariableInfo)) :=
  let tbl := (lookupA vt scopeKey).getD []
  setA vt scopeKey (setA tbl (lowerS name) vi)

/-- `ParseTree._parse_array_spec`. -/
def parseArraySpec (line : String) : Option Int :=
  if hasSub "DeferredShapeSpecList -> int = " line then
    match extractInt ("DeferredShapeSpecList -> int = " ++ sqS) line with
    | some n => some (n : Int)
    | none => some 1
  else if hasSub "AssumedShapeSpec -> int = " line then
    match extractInt ("AssumedShapeSpec -> int = " ++ sqS) line with
    | some n => some (n : Int)
    | none => some 1
  else if hasSub "AssumedShapeSpec" line then some 1
  else if hasSub "AssumedRankSpec" line then some (-1)
  else if hasSub "ImpliedShapeSpec" line then some 1
  else if hasSub "ExplicitShapeSpec" line then some 1
  else none

/-- `ParseTree._extract_kind_from_line`. -/
def extractKindFromLine (line : String) : Option String :=
  if hasSub "KindSelector" line then nameEq line else none

/-- `ParseTree._extract_type_from_decl`. -/
def extractTypeFromDecl (declLine : String) : String :=
  if hasSub "IntrinsicTypeSpec -> IntegerTypeSpec" declLine then "integer"
  else if hasSub "IntrinsicTypeSpec -> RealTypeSpec" declLine
      || hasSub "IntrinsicTypeSpec -> Real" declLine then "real"
  else if hasSub "IntrinsicTypeSpec -> DoublePrecision" declLine then "real"
  else if hasSub "IntrinsicTypeSpec -> Character" declLine then "character"
  else if hasSub "IntrinsicTypeSpec -> Logical" declLine then "logical"
  else if hasSub "IntrinsicTypeSpec -> Complex" declLine then "complex"
  else if hasSub "DeclarationTypeSpec -> Type" declLine
      || hasSub "DerivedTypeSpec" declLine then
    match nameEq declLine with
    | some n => "derived:" ++ n
    | none => "derived"
  else if hasSub "DeclarationTypeSpec -> Class" declLine then "class"
  else "unknown"

/-- The continuation-line loop of `_count_explicit_dimensions`. -/
def countExplicitGo (specLevel : Nat) : Nat → Nat → String → List String →
    Except String (Nat × String × List String)
  | 0, _, _, _ => .error "fuel"
  | fuel + 1, count, line, rest =>
    match rest with
    | [] => .ok (count, line, rest)
    | nl :: r =>
      if nl = "" then .ok (count, line, nl :: r)
      else if decide (specLevel < level nl) then countExplicitGo specLevel fuel count nl r
      else if decide (level nl = specLevel)
          && (hasSub "ExplicitShapeSpec" nl || hasSub "AssumedShapeSpec" nl) then
        countExplicitGo specLevel fuel (count + 1) nl r
      else .ok (count, line, nl :: r)

/-- `ParseTree._count_explicit_dimensions`. -/
def countExplicitDimensions (firstLine : String) (line : String) (rest : List String) :
    Except String (Nat × String × List String) :=
  if hasSub "ExplicitShapeSpec" firstLine || hasSub "AssumedShapeSpec" firstLine then
    countExplicitGo (level firstLine) (rest.length + 1) 0 line rest
  else .ok (0, line, rest)

/-- The entity block loop of `_parse_entity_decl`. -/
def parseEntityDeclGo (entityLevel : Nat) : Nat → Option String → Int → String →
    List String → Except String (Option String × Int × String × List String)
  | 0, _, _, _, _ => .error "fuel"
  | fuel + 1, name, rank, line, rest =>
    match rest with
    | [] => .ok (name, rank, line, rest)
    | nl :: r =>
      if nl = "" then .ok (name, rank, line, nl :: r)
      else if decide (entityLevel < level nl) then
        if hasSub ("Name = " ++ sqS) nl then
          let name' := match nameEq nl with | some m => some m | none => name
          parseEntityDeclGo entityLevel fuel name' rank nl r
        else if hasSub "ArraySpec" nl then
          let rank1 := match parseArraySpec nl with | some rk => rk | none => rank
          match countExplicitDimensions nl nl r with
          | .ok (cnt, line', rest') =>
            parseEntityDeclGo entityLevel fuel name (rank1 + (cnt : Int)) line' rest'
          | .error e => .error e
        else parseEntityDeclGo entityLevel fuel name rank nl r
      else .ok (name, rank, line, nl :: r)

/-- `ParseTree._parse_entity_decl`: name and rank of one entity, falling
back to the type-level rank when no positive entity rank was found. -/
def parseEntityDecl (baseRank : Int) (line : String) (rest : List String) :
    Except String (Option String × Int × String × List String) :=
  match parseEntityDeclGo (level line) (rest.length + 1) none 0 line rest with
  | .ok (name, rank, line', rest') =>
    .ok (name, if 0 < rank then rank else baseRank, line', rest')
  | .error e => .error e

/-- State carried by the `_parse_routine_signature` loop. -/
structure SigLoopSt where
  declType : String := "unknown"
  declOpt : Bool := false
  declRank : Int := 0
  declKind : Option String := none
  argTypeMap : List (String × String) := []
  argRankMap : List (String × Int) := []
  argKindMap : List (String × Option String) := []
  optionalArgs : List String := []
  varsAdd : List (String × VariableInfo) := []
deriving DecidableEq, Repr

/-- The SpecificationPart loop of `_parse_routine_signature`. -/
def sigLoop (argNames : List String) (specLevel : Nat) :
    Nat → SigLoopSt → String → List String →
    Except String (SigLoopSt × String × List String)
  | 0, _, _, _ => .error "fuel"
  | fuel + 1, st, line, rest =>
    match rest with
    | [] => .ok (st, line, rest)
    | nl :: r =>
      if nl = "" then .ok (st, line, nl :: r)
      else if decide (level nl ≤ specLevel) then .ok (st, line, nl :: r)
      else if hasSub "TypeDeclarationStmt" nl then
        sigLoop argNames specLevel fuel
          { st with declType := "unknown", declOpt := false, declRank := 0, declKind := none }
          nl r
      else if hasSub "DeclarationTypeSpec" nl then
        let t := extractTypeFromDecl nl
        let k := match extractKindFromLine nl with | some k0 => some k0 | none => st.declKind
        if t = "derived" then
          match r with
          | [] => sigLoop argNames specLevel fuel { st with declType := t, declKind := k } nl []
          | nl2 :: r2 =>
            if nl2 ≠ "" && hasSub "DerivedTypeSpec" nl2 then
              match r2 with
              | [] =>
                sigLoop argNames specLevel fuel { st with declType := t, declKind := k } nl2 []
              | nl3 :: r3 =>
                if nl3 ≠ "" && hasSub "Name = " nl3 then
                  let t' := match nameEq nl3 with | some n => "derived:" ++ n | none => t
                  sigLoop argNames specLevel fuel
                    { st with declType := t', declKind := k } nl3 r3
                else
                  sigLoop argNames specLevel fuel
                    { st with declType := t, declKind := k } nl2 (nl3 :: r3)
            else sigLoop argNames specLevel fuel { st with declType := t, declKind := k } nl (nl2 :: r2)
        else sigLoop argNames specLevel fuel { st with declType := t, declKind := k } nl r
      else
        match extractKindFromLine nl with
        | some k0 => sigLoop argNames specLevel fuel { st with declKind := some k0 } nl r
        | none =>
          if hasSub "AttrSpec -> Optional" nl then
            sigLoop argNames specLevel fuel { st with declOpt := true } nl r
          else if hasSub "AttrSpec -> ArraySpec" nl then
            let r1 := match parseArraySpec nl with | some rk => rk | none => st.declRank
            match countExplicitDimensions nl nl r with
            | .ok (cnt, line', rest') =>
              sigLoop argNames specLevel fuel { st with declRank := r1 + (cnt : Int) } line' rest'
            | .error e => .error e
          else if hasSub "EntityDecl" nl then
            match parseEntityDecl st.declRank nl r with
            | .ok (declName, entityRank, line', rest') =>
              match declName with
              | some dn =>
                let st1 := { st with
                  varsAdd := st.varsAdd
                    ++ [(dn, { type := st.declType, rank := entityRank, kind := st.declKind })] }
                let st2 :=
                  if argNames.contains dn then
                    { st1 with
                      argTypeMap := setA st1.argTypeMap dn st.declType,
                      argRankMap := setA st1.argRankMap dn entityRank,
                      argKindMap := setA st1.argKindMap dn st.declKind,
                      optionalArgs :=
                        if st.declOpt then addS dn st1.optionalArgs else st1.optionalArgs }
                  else st1
                sigLoop argNames specLevel fuel st2 line' rest'
              | none => sigLoop argNames specLevel fuel st line' rest'
            | .error e => .error e
          else sigLoop argNames specLevel fuel st nl r

/-- The argument data produced by `_parse_routine_signature`, plus the
variables registered along the way. -/
structure SigData where
  numRequired : Nat
  argNamesL : List String
  argTypesL : List String
  argRanksL : List Int
  argKindsL : List (Option String)
  varsAdd : List (String × VariableInfo)
deriving DecidableEq, Repr

/-- `ParseTree._parse_routine_signature`. -/
def parseRoutineSignature (argNames : List String) (line : String) (rest : List String) :
    Except String (SigData × String × List String) :=
  if argNames.isEmpty then
    .ok ({ numRequired := 0, argNamesL := [], argTypesL := [], argRanksL := [],
           argKindsL := [], varsAdd := [] }, line, rest)
  else
    let n := argNames.length
    let noSpec : SigData :=
      { numRequired := n, argNamesL := argNames,
        argTypesL := argNames.map (fun _ => "unknown"),
        argRanksL := argNames.map (fun _ => 0),
        argKindsL := argNames.map (fun _ => none), varsAdd := [] }
    match rest with
    | [] => .ok (noSpec, line, rest)
    | nl :: r =>
      if nl = "" || !hasSub "| SpecificationPart" nl then .ok (noSpec, line, nl :: r)
      else
        match sigLoop argNames (level nl) (r.length + 1) {} nl r with
        | .ok (st, line', rest') =>
          .ok ({ numRequired := n - st.optionalArgs.length,
                 argNamesL := argNames,
                 argTypesL := argNames.map (fun a => (lookupA st.argTypeMap a).getD "unknown"),
                 argRanksL := argNames.map (fun a => (lookupA st.argRankMap a).getD 0),
                 argKindsL := argNames.map (fun a => (lookupA st.argKindMap a).getD none),
                 varsAdd := st.varsAdd }, line', rest')
        | .error e => .error e

/-- The Prefix-skipping loop at the top of `parse_routine_begin`. -/
def skipPrefixLines (stmtLevel : Nat) : Nat → String → List String →
    Except String (String × List String)
  | 0, _, _ => .error "fuel"
  | fuel + 1, line, rest =>
    if hasWordB "Prefix" line || decide (stmtLevel < level line) then
      match rest with
      | [] => .error "StopIteration"
      | l :: r => skipPrefixLines stmtLevel fuel l r
    else .ok (line, rest)

/-- The dummy-argument collection loop of `parse_routine_begin`. -/
def collectDummyArgs (isSubroutine isFunction : Bool) (stmtLevel : Nat) :
    Nat → String → List String → Except String (List String × String × List String)
  | 0, _, _ => .error "fuel"
  | fuel + 1, line, rest =>
    match rest with
    | [] => .ok ([], line, rest)
    | nl :: r =>
      if nl = "" then .ok ([], line, nl :: r)
      else if decide (level nl = stmtLevel) then
        if isSubroutine && hasSub "DummyArg -> Name = " nl then
          match nameEq nl with
          | some a =>
            match collectDummyArgs isSubroutine isFunction stmtLevel fuel nl r with
            | .ok (args, line', rest') => .ok (a :: args, line', rest')
            | .error e => .error e
          | none => collectDummyArgs isSubroutine isFunction stmtLevel fuel nl r
        else if isFunction && (extractQ ("| Name = " ++ sqS) nl).isSome then
          match nameEq nl with
          | some a =>
            match collectDummyArgs isSubroutine isFunction stmtLevel fuel nl r with
            | .ok (args, line', rest') => .ok (a :: args, line', rest')
            | .error e => .error e
          | none => collectDummyArgs isSubroutine isFunction stmtLevel fuel nl r
        else .ok ([], line, nl :: r)
      else .ok ([], line, nl :: r)

/-- Mutate a callable's parsed-signature fields (the assignments done by
`_parse_routine_signature`). -/
def setCallFields (isFn : Bool) (key : String) (sig : SigData) (st : PTStore) : PTStore :=
  match getCallD st isFn key with
  | some cd =>
    setCallD st isFn key
      { cd with
        numRequiredArgs := some sig.numRequired,
        argNames := some sig.argNamesL,
        argTypes := some sig.argTypesL,
        argRanks := some sig.argRanksL,
        argKinds := some sig.argKindsL }
  | none => st

/-- `ParseTree.parse_routine_begin`. -/
def parseRoutineBegin (s : PT) : Except String (Bool × PT) :=
  let isFunction := endsWithS s.line "| FunctionStmt"
  let isSubroutine := endsWithS s.line "| SubroutineStmt"
  if !(isFunction || isSubroutine) then .ok (false, s)
  else
    match s.rest with
    | [] => .error "StopIteration"
    | l :: r =>
      let stmtLevel := level l
      match skipPrefixLines stmtLevel (r.length + 2) l r with
      | .error e => .error e
      | .ok (line1, rest1) =>
        match nameEq line1 with
        | none => .error "FunctionStmt syntax not recognized"
        | some name =>
          match collectDummyArgs isSubroutine isFunction stmtLevel (rest1.length + 1)
              line1 rest1 with
          | .error e => .error e
          | .ok (args, line2, rest2) =>
            if s.curr.routine.isSome && s.curr.parentRoutine.isSome then
              .error "More than one level of routine nesting found"
            else
              match programUnitOf s.curr with
              | none =>
                .error "Function/Subroutine found without a preceding ModuleStmt or ProgramStmt"
              | some pu =>
                let parentR := s.curr.routine
                let key := callableKey name pu.2 (parentR.map (fun p => p.name))
                let curr1 := { s.curr with
                  parentRoutine := parentR,
                  routine := some { isFunction := isFunction, key := key, name := name } }
                let store1 := nrCallable isFunction key name pu.2
                  (parentR.map (fun p => p.name)) s.store
                let store2 :=
                  if parentR.isNone then addCallableToUnit pu.1 pu.2 isFunction key store1
                  else store1
                match parseRoutineSignature args line2 rest2 with
                | .error e => .error e
                | .ok (sig, line3, rest3) =>
                  let store3 := setCallFields isFunction key sig store2
                  let scopeKey := getScopeKey curr1
                  let varTab' := sig.varsAdd.foldl
                    (fun vt nv => addVar vt scopeKey nv.1 nv.2) s.varTab
                  .ok (true,
                    { s with
                      line := line3, rest := rest3, curr := curr1,
                      store := store3, varTab := varTab' })

/-- `ParseTree.parse_routine_end`. -/
def parseRoutineEnd (s : PT) : Except String (Bool × PT) :=
  if hasSub "| EndFunctionStmt" s.line then
    match s.curr.routine with
    | some r =>
      if !r.isFunction then .error "EndFunctionStmt found without a preceding FunctionStmt"
      else
        match extractQ ("EndFunctionStmt -> Name = " ++ sqS) s.line with
        | some endName =>
          if endName = r.name then
            .ok (true, { s with curr :=
              { s.curr with routine := s.curr.parentRoutine, parentRoutine := none } })
          else .error "EndFunctionStmt name does not match FunctionStmt name"
        | none =>
          .ok (true, { s with curr :=
            { s.curr with routine := s.curr.parentRoutine, parentRoutine := none } })
    | none => .error "EndFunctionStmt found without a preceding FunctionStmt"
  else if hasSub "| EndSubroutineStmt" s.line then
    match s.curr.routine with
    | some r =>
      if r.isFunction then .error "EndSubroutineStmt found without a preceding SubroutineStmt"
      else
        match extractQ ("EndSubroutineStmt -> Name = " ++ sqS) s.line with
        | some endName =>
          if endName = r.name then
            .ok (true, { s with curr :=
              { s.curr with routine := s.curr.parentRoutine, parentRoutine := none } })
          else .error "EndSubroutineStmt name does not match SubroutineStmt name"
        | none =>
          .ok (true, { s with curr :=
            { s.curr with routine := s.curr.parentRoutine, parentRoutine := none } })
    | none => .error "EndSubroutineStmt found without a preceding SubroutineStmt"
  else .ok (false, s)

/-- `ParseTree.parse_only_clause`. -/
def parseOnlyClause (s : PT) : Except String (Bool × PT) :=
  if !hasSub "| Only" s.line then .ok (false, s)
  else
    let step : Except String (Option String × String × String × List String) :=
      match extractQ ("Only -> GenericSpec -> Name = " ++ sqS) s.line with
      | some n => .ok (none, n, s.line, s.rest)
      | none =>
        match extractW "Only -> GenericSpec -> DefinedOperator -> IntrinsicOperator = "
            s.line with
        | some n => .ok (none, n, s.line, s.rest)
        | none =>
          if hasSub "Only -> GenericSpec -> Assignment" s.line then
            .ok (none, "assignment(=)", s.line, s.rest)
          else if hasSub "Only -> Rename -> Names" s.line then
            match s.rest with
            | [] => .error "StopIteration"
            | l1 :: r1 =>
              match nameEq l1 with
              | none => .error "Only Rename syntax not recognized"
              | some al =>
                match r1 with
                | [] => .error "StopIteration"
                | l2 :: r2 =>
                  match nameEq l2 with
                  | none => .error "Only Rename syntax not recognized"
                  | some orig => .ok (some al, orig, l2, r2)
          else .error "Only syntax not recognized"
    match step with
    | .error e => .error e
    | .ok (al, usedName, line', rest') =>
      match s.curr.usedModule with
      | none => .error "Only clause found without a preceding UseStmt"
      | some um =>
        match scopeOf s.curr with
        | none => .error "AttributeError: scope is None"
        | some sc =>
          match getScopeLists s.store sc with
          | none => .error "KeyError: scope object missing"
          | some (un, ur) =>
            match al with
            | some al' =>
              match lookupA ur um with
              | none => .error "KeyError: used module not in used_renames_lists"
              | some renames =>
                let ur' := setA ur um (renames ++ [(al', usedName)])
                .ok (true,
                  { s with
                    line := line', rest := rest',
                    store := setScopeLists s.store sc un ur' })
            | none =>
              match lookupA un um with
              | none => .error "KeyError: used module not in used_names_lists"
              | some names =>
                if (match names with | n0 :: _ => n0 == "*" | [] => false) then
                  .ok (true, { s with line := line', rest := rest' })
                else
                  let un' := setA un um (names ++ [usedName])
                  .ok (true,
                    { s with
                      line := line', rest := rest',
                      store := setScopeLists s.store sc un' ur })

/-- `ParseTree.parse_rename_clause`. -/
def parseRenameClause (s : PT) : Except String (Bool × PT) :=
  if !hasSub "| Rename" s.line then .ok (false, s)
  else if !endsWithS s.line "Rename -> Names" then .error "Rename syntax not recognized"
  else
    match s.curr.usedModule with
    | none => .error "Rename clause found without a preceding UseStmt"
    | some um =>
      match s.rest with
      | [] => .error "StopIteration"
      | l1 :: r1 =>
        match nameEq l1 with
        | none => .error "Rename syntax not recognized"
        | some al =>
          match r1 with
          | [] => .error "StopIteration"
          | l2 :: r2 =>
            match nameEq l2 with
            | none => .error "Rename syntax not recognized"
            | some orig =>
              match scopeOf s.curr with
              | none => .error "AttributeError: scope is None"
              | some sc =>
                match getScopeLists s.store sc with
                | none => .error "KeyError: scope object missing"
                | some (un, ur) =>
                  match lookupA ur um with
                  | none => .error "KeyError: used module not in used_renames_lists"
                  | some renames =>
                    let store1 := setScopeLists s.store sc un
                      (setA ur um (renames ++ [(al, orig)]))
                    match r2 with
                    | [] => .error "TypeError: argument of type NoneType is not iterable"
                    | nl :: _ =>
                      let curr1 :=
                        if !hasSub "| Rename" nl then { s.curr with usedModule := none }
                        else s.curr
                      .ok (true,
                        { s with
                          line := l2, rest := r2, curr := curr1,
                          store := store1 })

/-- The representation decision at the end of `parse_use_stmt`, from the
peeked next line: an Only clause begins empty name and rename lists (when
not already present); a Rename production begins the `*` sentinel name
list plus an empty rename list (when not already present); anything else
records the `*` sentinel unconditionally and clears the pending-module
marker. -/
def useStmtRecord (um : String) (nextLine : String)
    (usedNames : List (String × List String))
    (usedRenames : List (String × List (String × String))) :
    List (String × List String) × List (String × List (String × String)) × Option String :=
  if hasSub "| Only" nextLine then
    ((match lookupA usedNames um with
      | some _ => usedNames
      | none => setA usedNames um []),
     (match lookupA usedRenames um with
      | some _ => usedRenames
      | none => setA usedRenames um []),
     some um)
  else if hasSub "| Rename" nextLine then
    ((match lookupA usedNames um with
      | some _ => usedNames
      | none => setA usedNames um ["*"]),
     (match lookupA usedRenames um with
      | some _ => usedRenames
      | none => setA usedRenames um []),
     some um)
  else
    (setA usedNames um ["*"], setA usedRenames um [], none)

/-- `ParseTree.parse_use_stmt`. -/
def parseUseStmt (s : PT) : Except String (Bool × PT) :=
  if !hasSub "| UseStmt" s.line then .ok (false, s)
  else if !endsWithS (dropTrailingSpaces s.line) "UseStmt" then
    .error "UseStmt syntax not recognized"
  else
    match s.rest with
    | [] => .error "StopIteration"
    | l1 :: r1 =>
      let step : Except String (String × List String) :=
        if hasWordB "ModuleNature" l1 then
          match r1 with
          | [] => .error "StopIteration"
          | l2 :: r2 => .ok (l2, r2)
        else .ok (l1, r1)
      match step with
      | .error e => .error e
      | .ok (nline, nrest) =>
        match nameEq nline with
        | none => .error "UseStmt Name syntax not recognized"
        | some usedModuleName =>
          let store1 := nrModule usedModuleName s.store
          match nrest with
          | [] => .error "Unexpected end of file after UseStmt"
          | nl :: _ =>
            match scopeOf s.curr with
            | none => .error "AttributeError: scope is None"
            | some sc =>
              match getScopeLists store1 sc with
              | none => .error "KeyError: scope object missing"
              | some (un, ur) =>
                let rec3 := useStmtRecord usedModuleName nl un ur
                .ok (true,
                  { s with
                    line := nline, rest := nrest,
                    curr := { s.curr with usedModule := rec3.2.2 },
                    store := setScopeLists store1 sc rec3.1 rec3.2.1 })

/-- The TypeAttrSpec-skipping loop of `parse_derived_type_stmt`. -/
def typeAttrLoop : Nat → Option String → String → List String →
    Except String (Option String × String × List String)
  | 0, _, _, _ => .error "fuel"
  | fuel + 1, parent, line, rest =>
    if hasSub "| TypeAttrSpec" line then
      let parent' := match extractQ ("TypeAttrSpec -> Extends -> Name = " ++ sqS) line with
        | some n => some n
        | none => parent
      match rest with
      | [] => .error "StopIteration"
      | l :: r => typeAttrLoop fuel parent' l r
    else .ok (parent, line, rest)

/-- `ParseTree.parse_derived_type_stmt`. -/
def parseDerivedTypeStmt (s : PT) : Except String (Bool × PT) :=
  if !hasSub "DerivedTypeDef" s.line then .ok (false, s)
  else if s.curr.derivedType.isSome then .error "Nested DerivedTypeDef not supported"
  else if !endsWithS s.line
      "DeclarationConstruct -> SpecificationConstruct -> DerivedTypeDef" then
    .error "AssertionError: DerivedTypeDef line shape"
  else
    match s.rest with
    | [] => .error "StopIteration"
    | l1 :: r1 =>
      if !endsWithS l1 "| DerivedTypeStmt" then .error "DerivedTypeStmt syntax not recognized"
      else
        match r1 with
        | [] => .error "StopIteration"
        | l2 :: r2 =>
          match typeAttrLoop (r2.length + 2) none l2 r2 with
          | .error e => .error e
          | .ok (parent, line', rest') =>
            match nameEq line' with
            | none => .error "DerivedTypeStmt Name syntax not recognized"
            | some dtName =>
              match scopeOf s.curr with
              | none => .error "AttributeError: scope is None"
              | some sc =>
                let key := scopedKey dtName (scopeRefName sc)
                let store1 :=
                  match lookupA s.store.derivedTypes key with
                  | some _ => s.store
                  | none =>
                    let st1 :=
                      { s.store with
                        derivedTypes :=
                          setA s.store.derivedTypes key
                            { name := dtName, scopeName := scopeRefName sc } }
                    addDerivedToScope st1 sc key
                let store2 :=
                  match parent with
                  | some pn =>
                    (match lookupA store1.derivedTypes key with
                     | some dt =>
                       { store1 with
                         derivedTypes :=
                           setA store1.derivedTypes key
                             { dt with parentTypeName := some pn } }
                     | none => store1)
                  | none => store1
                .ok (true,
                  { s with
                    line := line', rest := rest',
                    curr := { s.curr with derivedType := some (key, dtName) },
                    store := store2 })

/-- The name-collection loop of `parse_type_bound_proc_binding`. -/
def typeBoundNamesLoop (bindingLevel : Nat) : Nat → Option String → Option String →
    String → List String →
    Except String (Option String × Option String × String × List String)
  | 0, _, _, _, _ => .error "fuel"
  | fuel + 1, bname, iname, line, rest =>
    match rest with
    | [] => .ok (bname, iname, line, rest)
    | nl :: r =>
      if nl = "" then .ok (bname, iname, line, nl :: r)
      else if decide (level nl ≤ bindingLevel) then .ok (bname, iname, line, nl :: r)
      else
        match nameEq nl with
        | some m =>
          if bname.isNone then typeBoundNamesLoop bindingLevel fuel (some m) iname nl r
          else typeBoundNamesLoop bindingLevel fuel bname (some m) nl r
        | none => typeBoundNamesLoop bindingLevel fuel bname iname nl r

/-- `ParseTree.parse_type_bound_proc_binding`.  Recording a binding raises
`AttributeError`: `DerivedType.__init__` never creates the `bindings`
attribute the recognizer assigns into. -/
def parseTypeBoundProcBinding (s : PT) : Except String (Bool × PT) :=
  if !hasSub "TypeBoundProcBinding" s.line then .ok (false, s)
  else
    match s.curr.derivedType with
    | none => .ok (false, s)
    | some dtRef =>
      match typeBoundNamesLoop (level s.line) (s.rest.length + 1) none none s.line s.rest with
      | .error e => .error e
      | .ok (bname, iname, line', rest') =>
        let iname' := match bname, iname with
          | some b, none => some b
          | _, i => i
        match bname, iname' with
        | some b, some i =>
          (match lookupA s.store.derivedTypes dtRef.1 with
           | some dt =>
             (match dt.bindings with
              | some m =>
                .ok (true,
                  { s with
                    line := line', rest := rest',
                    store :=
                      { s.store with
                        derivedTypes :=
                          setA s.store.derivedTypes dtRef.1
                            { dt with bindings := some (setA m b i) } } })
              | none => .error "AttributeError: DerivedType object has no attribute bindings")
           | none => .error "KeyError: derived type missing")
        | _, _ => .ok (true, { s with line := line', rest := rest' })

/-- `ParseTree.parse_end_derived_type_stmt`. -/
def parseEndDerivedTypeStmt (s : PT) : Except String (Bool × PT) :=
  if !hasSub "| EndTypeStmt" s.line then .ok (false, s)
  else
    match s.curr.derivedType with
    | none => .error "EndTypeStmt found without a preceding DerivedTypeStmt"
    | some dtRef =>
      match extractQ ("EndTypeStmt -> Name = " ++ sqS) s.line with
      | some n =>
        if n = dtRef.2 then
          .ok (true, { s with curr := { s.curr with derivedType := none } })
        else .error "EndTypeStmt name does not match DerivedTypeStmt name"
      | none => .ok (true, { s with curr := { s.curr with derivedType := none } })

/-- The declaration-statement loop of `parse_variable_declaration`. -/
def varDeclLoop (stmtLevel : Nat) :
    Nat → (String × Int × Option String) → List (String × VariableInfo) → String →
    List String →
    Except String (List (String × VariableInfo) × String × List String)
  | 0, _, _, _, _ => .error "fuel"
  | fuel + 1, decl, adds, line, rest =>
    match rest with
    | [] => .ok (adds, line, rest)
    | nl :: r =>
      if nl = "" then .ok (adds, line, nl :: r)
      else if decide (level nl ≤ stmtLevel) then .ok (adds, line, nl :: r)
      else if hasSub "DeclarationTypeSpec" nl then
        let t := extractTypeFromDecl nl
        let k0 := match extractKindFromLine nl with | some k => some k | none => decl.2.2
        let k1 := if hasSub "DoublePrecision" nl then some "r8_kind" else k0
        varDeclLoop stmtLevel fuel (t, decl.2.1, k1) adds nl r
      else if hasSub "AttrSpec -> ArraySpec" nl then
        let r1 := match parseArraySpec nl with | some rk => rk | none => decl.2.1
        match countExplicitDimensions nl nl r with
        | .ok (cnt, line', rest') =>
          varDeclLoop stmtLevel fuel (decl.1, r1 + (cnt : Int), decl.2.2) adds line' rest'
        | .error e => .error e
      else if hasSub "EntityDecl" nl && !hasSub "Name = " nl then
        match parseEntityDecl decl.2.1 nl r with
        | .ok (ename, erank, line', rest') =>
          let adds' := match ename with
            | some en => adds ++ [(en, { type := decl.1, rank := erank, kind := decl.2.2 })]
            | none => adds
          varDeclLoop stmtLevel fuel decl adds' line' rest'
        | .error e => .error e
      else if hasSub ("Name = " ++ sqS) nl && !hasSub "EntityDecl" line then
        let adds' := match nameEq nl with
          | some en => adds ++ [(en, { type := decl.1, rank := decl.2.1, kind := decl.2.2 })]
          | none => adds
        varDeclLoop stmtLevel fuel decl adds' nl r
      else varDeclLoop stmtLevel fuel decl adds nl r

/-- `ParseTree.parse_variable_declaration`. -/
def parseVariableDeclaration (s : PT) : Except String (Bool × PT) :=
  if !hasSub "TypeDeclarationStmt" s.line then .ok (false, s)
  else if s.curr.derivedType.isSome then .ok (false, s)
  else
    match varDeclLoop (level s.line) (s.rest.length + 1) ("unknown", 0, none) [] s.line
        s.rest with
    | .error e => .error e
    | .ok (adds, line', rest') =>
      let sk := getScopeKey s.curr
      let varTab' := adds.foldl (fun vt nv => addVar vt sk nv.1 nv.2) s.varTab
      .ok (true, { s with line := line', rest := rest', varTab := varTab' })

/-- `ParseTree.parse_module_stmt`. -/
def parseModuleStmt (s : PT) : Except String (Bool × PT) :=
  if !hasSub "| ModuleStmt" s.line then .ok (false, s)
  else
    match extractQ ("ModuleStmt -> Name = " ++ sqS) s.line with
    | none => .error "ModuleStmt syntax not recognized"
    | some mname =>
      if s.curr.module.isSome then .error "ModuleStmt found without a preceding EndModuleStmt"
      else
        let store1 := setModulePath mname s.pathStr (nrModule mname s.store)
        .ok (true, { s with curr := { s.curr with module := some mname }, store := store1 })

/-- `ParseTree.parse_end_module_stmt`. -/
def parseEndModuleStmt (s : PT) : Except String (Bool × PT) :=
  if !hasSub "| EndModuleStmt" s.line then .ok (false, s)
  else
    match s.curr.module with
    | none => .error "EndModuleStmt found without a preceding ModuleStmt"
    | some mname =>
      match extractQ ("EndModuleStmt -> Name = " ++ sqS) s.line with
      | some n =>
        if n = mname then .ok (true, { s with curr := { s.curr with module := none } })
        else .error "EndModuleStmt name does not match ModuleStmt name"
      | none => .ok (true, { s with curr := { s.curr with module := none } })

/-- `ParseTree.parse_program_unit`. -/
def parseProgramUnit (s : PT) : Except String (Bool × PT) :=
  if !startsWithS s.line "Program -> ProgramUnit" then .ok (false, s)
  else if startsWithS s.line "Program -> ProgramUnit -> FunctionSubprogram"
      || startsWithS s.line "Program -> ProgramUnit -> SubroutineSubprogram" then
    .ok (true,
      { s with
        curr := { s.curr with subprogram := some s.stem },
        store := nrSubprogram s.stem s.store })
  else if startsWithS s.line "Program -> ProgramUnit -> Module" then .ok (true, s)
  else if startsWithS s.line "Program -> ProgramUnit -> MainProgram" then
    match s.rest with
    | [] => .error "StopIteration"
    | l :: r =>
      match extractQ ("ProgramStmt -> Name = " ++ sqS) l with
      | none => .error "ProgramStmt syntax not recognized"
      | some pname =>
        let store1 := setProgramPath pname s.pathStr (nrProgram pname s.store)
        .ok (true,
          { s with
            line := l, rest := r,
            curr := { s.curr with program := some pname }, store := store1 })
  else .error "ProgramUnit syntax not recognized"

/-- `ParseTree.parse_header`: consume the first line of the stream and
report whether it starts with the `======` banner (a warning is printed
when it does not).  An empty file yields one empty line. -/
def parseHeader (lines : List String) : Bool × String × List String :=
  match lines with
  | [] => (false, "", [])
  | l :: r => (startsWithS l "======", l, r)

/-- The ordered recognizer chain of `parse_structure`; first match wins. -/
def structDispatch (s : PT) : Except String PT := do
  let (h, s) ← parseRoutineBegin s
  if h then return s
  let (h, s) ← parseRoutineEnd s
  if h then return s
  let (h, s) ← parseOnlyClause s
  if h then return s
  let (h, s) ← parseRenameClause s
  if h then return s
  let (h, s) ← parseUseStmt s
  if h then return s
  let (h, s) ← parseDerivedTypeStmt s
  if h then return s
  let (h, s) ← parseTypeBoundProcBinding s
  if h then return s
  let (h, s) ← parseEndDerivedTypeStmt s
  if h then return s
  let (h, s) ← parseVariableDeclaration s
  if h then return s
  let (h, s) ← parseModuleStmt s
  if h then return s
  let (h, s) ← parseEndModuleStmt s
  if h then return s
  let (h, s) ← parseProgramUnit s
  if h then return s
  return s

/-- The `for self.line in self.lines()` loop of `parse_structure`. -/
def structLoop : Nat → PT → Except String PT
  | 0, _ => .error "fuel"
  | fuel + 1, s =>
    match s.rest with
    | [] => .ok s
    | l :: r =>
      match structDispatch { s with line := l, rest := r } with
      | .ok s1 => structLoop fuel s1
      | .error e => .error e

/-- `ParseTree.parse_structure`: parse the header — discarding its result,
faithful to the source, which ignores the `False` of a bad first line — and
run the recognizer chain over every remaining line.  The guaranteed
`reset()` clears the cursor and ParseState but keeps the interned store and
the variable table. -/
def parseStructure (pathStr stem : String) (lines : List String) : Except String PT :=
  let hd := parseHeader lines
  match structLoop (hd.2.2.length + 1)
      { line := hd.2.1, rest := hd.2.2, pathStr := pathStr, stem := stem } with
  | .ok s => .ok { s with line := "", rest := [], curr := {} }
  | .error e => .error e

/-- C2 (code evaluated at the failing input): a dump file whose first line
is not the `======` banner is not skipped — `parse_structure` discards the
`False` returned by `parse_header` and keeps parsing, so the `ModuleStmt`
on the second line registers module `m`: the pass succeeds and the
registry holds one module. -/
theorem c2_bad_header_still_registers_module :
    (parseStructure "bad.ptree" "bad"
        ["Flang bad header", "| ModuleStmt -> Name = " ++ qt "m"]).toOption.map
      (fun s => s.store.modules.map Prod.fst) = some ["m"] := by decide

/-- C9 (counterexample): a use-statement whose next line is a Rename
production records the sentinel `*` as the module's imported-names list —
not an empty list as the claim states. -/
theorem c9_use_stmt_rename_counterexample :
    ((parseUseStmt
        { line := "| | UseStmt",
          rest := ["| | | Name = " ++ qt "foomod", "| | | Rename -> Names"],
          curr := { module := some "testmod" },
          store := { modules := [("testmod", { name := "testmod" })] } }).toOption.map
      (fun bs =>
        (lookupA bs.2.store.modules "testmod").map (fun u => lookupA u.usedNames "foomod"))
      = some (some (some ["*"])))
    ∧ (["*"] : List String) ≠ [] := by
  constructor
  · decide
  · decide

/-- C9 (amended): the representation recorded by `parse_use_stmt` for a
freshly referenced module, decided by peeking the next line: an Only
clause begins empty name and rename lists; a Rename production begins the
sentinel `*` name list plus an empty rename list; anything else records
the sentinel immediately and clears the pending-module marker. -/
theorem c9_use_stmt_branches_amended (um : String) (nextLine : String)
    (un : List (String × List String)) (ur : List (String × List (String × String)))
    (hfreshN : lookupA un um = none) (hfreshR : lookupA ur um = none) :
    (hasSub "| Only" nextLine = true →
      useStmtRecord um nextLine un ur = (setA un um [], setA ur um [], some um))
  ∧ (hasSub "| Only" nextLine = false → hasSub "| Rename" nextLine = true →
      useStmtRecord um nextLine un ur = (setA un um ["*"], setA ur um [], some um))
  ∧ (hasSub "| Only" nextLine = false → hasSub "| Rename" nextLine = false →
      useStmtRecord um nextLine un ur = (setA un um ["*"], setA ur um [], none)) := by
  refine ⟨?_, ?_, ?_⟩
  · intro h1
    simp [useStmtRecord, h1, hfreshN, hfreshR]
  · intro h1 h2
    simp [useStmtRecord, h1, h2, hfreshN, hfreshR]
  · intro h1 h2
    simp [useStmtRecord, h1, h2]

/-- Witness for C9's amended statement at concrete lines for each of the
three branches. -/
theorem c9_use_stmt_branches_amended_witness :
    (useStmtRecord "m" "| | | Only -> GenericSpec -> Name = x" [] []
      = ([("m", [])], [("m", [])], some "m"))
  ∧ (useStmtRecord "m" "| | | Rename -> Names" [] []
      = ([("m", ["*"])], [("m", [])], some "m"))
  ∧ (useStmtRecord "m" "| | SpecificationPart" [] []
      = ([("m", ["*"])], [("m", [])], none)) := by
  refine ⟨?_, ?_, ?_⟩
  · exact (c9_use_stmt_branches_amended "m" _ [] [] rfl rfl).1 (by decide)
  · exact (c9_use_stmt_branches_amended "m" _ [] [] rfl rfl).2.1 (by decide) (by decide)
  · exact (c9_use_stmt_branches_amended "m" _ [] [] rfl rfl).2.2 (by decide) (by decide)

end Flinspect
